import Mathlib

/-!
Verification development for a multi-provider DNS manager.

The development shallowly embeds the core of the application:
* `src/lib/dns-validation.ts` — the DNS record validator (pure functions),
* `src/lib/crypto.ts` — the credential vault (AES-256-GCM blob layout and
  the legacy base64-JSON fallback) and the in-memory rate limiter,
* `src/server/auth.ts` — the sync reconciliation engine
  (`syncProvider`, `syncDomainRecords`, `createRecord`, `updateRecord`,
  `deleteRecord`) over an explicit relational-store state.

JavaScript strings are modelled as Lean `String`s, byte buffers as
`List Nat` with every entry `< 256`, and JavaScript `number`s used by the
validator as exact rationals (the difference to IEEE-754 doubles is
confined to values within one ulp of the comparison bounds, which no
theorem below depends on).
-/

namespace DnsManager

/-! ## JavaScript string primitives -/

/-- The JavaScript whitespace class: the characters matched by `\s` and
trimmed by `String.prototype.trim` (space, tab, line terminators, NBSP,
BOM and the Unicode space separators). -/
def jsIsWs (c : Char) : Bool :=
  let n := c.toNat
  n == 0x09 || n == 0x0A || n == 0x0B || n == 0x0C || n == 0x0D ||
  n == 0x20 || n == 0xA0 || n == 0x1680 ||
  (0x2000 ≤ n && n ≤ 0x200A) ||
  n == 0x2028 || n == 0x2029 || n == 0x202F || n == 0x205F ||
  n == 0x3000 || n == 0xFEFF

/-- `String.prototype.trim` on the character-list level. -/
def jsTrimList (l : List Char) : List Char :=
  ((l.dropWhile jsIsWs).reverse.dropWhile jsIsWs).reverse

/-- `String.prototype.trim`. -/
def jsTrim (s : String) : String := ⟨jsTrimList s.data⟩

/-- `String.prototype.split` on a character class (one separator per
matching character, empty fields between adjacent separators). -/
def splitChars (p : Char → Bool) : List Char → List (List Char)
  | [] => [[]]
  | c :: cs =>
    let r := splitChars p cs
    if p c then [] :: r else (c :: r.headD []) :: r.tail

/-- `content.split(/\s+/)` on an already-trimmed string: splitting on
single whitespace characters and dropping the empty fields produced by
runs is equivalent to splitting on maximal whitespace runs. -/
def splitWsFields (t : String) : List String :=
  ((splitChars jsIsWs t.data).map (fun l => String.mk l)).filter (fun f => f ≠ "")

/-- `String.prototype.toUpperCase` (on the ASCII range the record types
use). -/
def jsToUpperChar (c : Char) : Char :=
  if 'a' ≤ c ∧ c ≤ 'z' then Char.ofNat (c.toNat - 32) else c

def jsToUpper (s : String) : String := ⟨s.data.map jsToUpperChar⟩

/-! ## Regular expressions of `dns-validation.ts`, embedded structurally -/

/-- One part of `IPV4_REGEX`: `25[0-5]|2[0-4][0-9]|[01]?[0-9][0-9]?`. -/
def ipv4PartOk (l : List Char) : Bool :=
  match l with
  | [a] => a.isDigit
  | [a, b] => a.isDigit && b.isDigit
  | [a, b, c] =>
    (a == '2' && b == '5' && ('0' ≤ c && c ≤ '5')) ||
    (a == '2' && ('0' ≤ b && b ≤ '4') && c.isDigit) ||
    ((a == '0' || a == '1') && b.isDigit && c.isDigit)
  | _ => false

/-- `IPV4_REGEX`: four dot-separated parts, each in `0..255` per the
regular expression's digit patterns. -/
def ipv4Test (s : String) : Bool :=
  let ps := splitChars (fun c => c == '.') s.data
  ps.length == 4 && ps.all ipv4PartOk

def isHexC (c : Char) : Bool :=
  c.isDigit || ('a' ≤ c && c ≤ 'f') || ('A' ≤ c && c ≤ 'F')

/-- Match `[0-9a-fA-F]{1,4}` greedily; in the IPv6 grammar a run of five
or more hex digits can never match, so failing on it is equivalent to
backtracking. -/
def matchHexGroup (l : List Char) : Option (List Char) :=
  let n := (l.takeWhile isHexC).length
  if 1 ≤ n ∧ n ≤ 4 then some (l.drop n) else none

/-- Match one `[0-9a-fA-F]{1,4}:` group. -/
def matchHexColon (l : List Char) : Option (List Char) :=
  match matchHexGroup l with
  | some (':' :: r) => some r
  | _ => none

/-- Greedily match at most `n` repetitions of `[0-9a-fA-F]{1,4}:`,
returning how many matched and the rest of the input. -/
def repHexColon : Nat → List Char → Nat × List Char
  | 0, l => (0, l)
  | n + 1, l =>
    match matchHexColon l with
    | some r => let (c, r') := repHexColon n r; (c + 1, r')
    | none => (0, l)

/-- Match `(?:[0-9a-fA-F]{1,4}:){0,k}[0-9a-fA-F]{1,4}` against the whole
remaining input. -/
def tailHexOk (k : Nat) (l : List Char) : Bool :=
  match matchHexGroup (repHexColon k l).2 with
  | some [] => true
  | _ => false

/-- Exactly `n` repetitions of `[0-9a-fA-F]{1,4}:`. -/
def repHexColonExact : Nat → List Char → Option (List Char)
  | 0, l => some l
  | n + 1, l => (matchHexColon l).bind (repHexColonExact n)

/-- `IPV6_REGEX` (the "simplified" pattern from the source), alternative
by alternative. -/
def ipv6Test (s : String) : Bool :=
  let l := s.data
  -- ^(?:[0-9a-fA-F]{1,4}:){7}[0-9a-fA-F]{1,4}$
  (match repHexColonExact 7 l with
   | some r => (matchHexGroup r) == some []
   | none => false) ||
  -- ^::(?:[0-9a-fA-F]{1,4}:){0,6}[0-9a-fA-F]{1,4}$
  (match l with
   | ':' :: ':' :: r => tailHexOk 6 r
   | _ => false) ||
  -- ^(?:[0-9a-fA-F]{1,4}:){1,7}:$
  (let (c, r) := repHexColon 7 l
   decide (1 ≤ c) && r == [':']) ||
  -- ^(?:[0-9a-fA-F]{1,4}:){0,6}::(?:[0-9a-fA-F]{1,4}:){0,5}[0-9a-fA-F]{1,4}$
  (match (repHexColon 6 l).2 with
   | ':' :: ':' :: r => tailHexOk 5 r
   | _ => false)

/-- One label of `HOSTNAME_REGEX`: `(?!-)[A-Za-z0-9-]{1,63}(?<!-)`. -/
def hostLabelOk (l : List Char) : Bool :=
  !l.isEmpty && l.length ≤ 63 &&
  l.all (fun c => c.isAlphanum || c == '-') &&
  l.headD ' ' != '-' && l.getLastD ' ' != '-'

/-- `HOSTNAME_REGEX`: dot-separated labels with an optional trailing dot. -/
def hostnameTest (s : String) : Bool :=
  !s.data.isEmpty &&
  (let core := if s.data.getLast? == some '.' then s.data.dropLast else s.data
   (splitChars (fun c => c == '.') core).all hostLabelOk)

/-- One label of `DNS_NAME_REGEX`:
`[a-zA-Z0-9](?:[a-zA-Z0-9-]*[a-zA-Z0-9])?` (no length bound). -/
def dnsLabelOk (l : List Char) : Bool :=
  !l.isEmpty &&
  l.all (fun c => c.isAlphanum || c == '-') &&
  (l.headD ' ').isAlphanum && (l.getLastD ' ').isAlphanum

/-- `DNS_NAME_REGEX`: `@`, `*`, or an optional `*.` prefix followed by
dot-separated labels (no trailing dot). -/
def dnsNameTest (s : String) : Bool :=
  s == "@" || s == "*" ||
  (let body :=
     match s.data with
     | '*' :: '.' :: rest => rest
     | l => l
   (splitChars (fun c => c == '.') body).all dnsLabelOk)

/-- `TXT_CONTENT_REGEX` applied after stripping quote characters:
`content.replace(/"/g, "")` then `^[\x20-\x7E]+$`. -/
def txtCharsOk (l : List Char) : Bool :=
  let stripped := l.filter (fun c => c != '"')
  !stripped.isEmpty && stripped.all (fun c => 0x20 ≤ c.toNat && c.toNat ≤ 0x7E)

/-! ## `Number(...)` on strings, for the SRV branch -/

/-- The value of a JavaScript `Number(string)` conversion: `NaN`, a signed
infinity, or a finite value `num / den` (an exact rational with `den` a
positive power of ten; see the header note on IEEE-754). -/
inductive JsNum where
  | nan : JsNum
  | inf (neg : Bool) : JsNum
  | val (num : Int) (den : Nat) : JsNum
deriving DecidableEq

def digitVal (c : Char) : Nat := c.toNat - 48

def natOfDigits (l : List Char) : Nat :=
  l.foldl (fun a c => a * 10 + digitVal c) 0

def hexDigitVal (c : Char) : Nat :=
  if c.isDigit then c.toNat - 48
  else if 'a' ≤ c && c ≤ 'f' then c.toNat - 87
  else c.toNat - 55

def natOfHexDigits (l : List Char) : Nat :=
  l.foldl (fun a c => a * 16 + hexDigitVal c) 0

def natOfBaseDigits (base : Nat) (l : List Char) : Nat :=
  l.foldl (fun a c => a * base + digitVal c) 0

/-- Parse an unsigned decimal literal
(`digits [. digits] [exp] | . digits [exp]`, the whole input), as an
exact `numerator / power-of-ten` pair. -/
def parseDecimalLit (l : List Char) : Option (Nat × Nat) :=
  let (ds, r1) := l.span Char.isDigit
  let (dot, fs, r2) :=
    match r1 with
    | '.' :: r1' => let (fs, r2) := r1'.span Char.isDigit; (true, fs, r2)
    | _ => (false, ([] : List Char), r1)
  if ds.isEmpty && fs.isEmpty then none
  else
    let base : Nat × Nat :=
      (natOfDigits ds * 10 ^ fs.length + natOfDigits fs, 10 ^ fs.length)
    match r2 with
    | [] => if dot || !ds.isEmpty then some base else none
    | e :: r3 =>
      if e == 'e' || e == 'E' then
        let (eneg, r4) :=
          match r3 with
          | '+' :: r4 => (false, r4)
          | '-' :: r4 => (true, r4)
          | _ => (false, r3)
        let (es, r5) := r4.span Char.isDigit
        if es.isEmpty || !r5.isEmpty then none
        else if eneg then some (base.1, base.2 * 10 ^ natOfDigits es)
        else some (base.1 * 10 ^ natOfDigits es, base.2)
      else none

/-- Parse the body of a string-number after the optional sign:
`Infinity` or a decimal literal. -/
def parseUnsignedNum (l : List Char) : JsNum :=
  if l = "Infinity".data then .inf false
  else
    match parseDecimalLit l with
    | some p => .val p.1 p.2
    | none => .nan

def jsNumNeg : JsNum → JsNum
  | .nan => .nan
  | .inf b => .inf !b
  | .val n d => .val (-n) d

/-- `Number(s)` for a string `s` (the `StringNumericLiteral` grammar:
empty → 0, optional sign with decimal/`Infinity`, unsigned `0x`/`0o`/`0b`
radix literals, anything else → `NaN`). -/
def jsNumber (s : String) : JsNum :=
  match jsTrimList s.data with
  | [] => .val 0 1
  | '0' :: 'x' :: r => if !r.isEmpty && r.all isHexC then .val (natOfHexDigits r) 1 else .nan
  | '0' :: 'X' :: r => if !r.isEmpty && r.all isHexC then .val (natOfHexDigits r) 1 else .nan
  | '0' :: 'o' :: r => if !r.isEmpty && r.all (fun c => '0' ≤ c && c ≤ '7') then .val (natOfBaseDigits 8 r) 1 else .nan
  | '0' :: 'O' :: r => if !r.isEmpty && r.all (fun c => '0' ≤ c && c ≤ '7') then .val (natOfBaseDigits 8 r) 1 else .nan
  | '0' :: 'b' :: r => if !r.isEmpty && r.all (fun c => c == '0' || c == '1') then .val (natOfBaseDigits 2 r) 1 else .nan
  | '0' :: 'B' :: r => if !r.isEmpty && r.all (fun c => c == '0' || c == '1') then .val (natOfBaseDigits 2 r) 1 else .nan
  | '+' :: r => parseUnsignedNum r
  | '-' :: r => jsNumNeg (parseUnsignedNum r)
  | t => parseUnsignedNum t

/-- `isNaN(n)`. -/
def jsNumIsNaN : JsNum → Bool
  | .nan => true
  | _ => false

/-- `n < 0` (false for `NaN`; the denominator is a positive power of
ten, so the sign is the numerator's). -/
def jsNumLtZero : JsNum → Bool
  | .nan => false
  | .inf b => b
  | .val n _ => decide (n < 0)

/-- `n > 65535` (false for `NaN`). -/
def jsNumGt65535 : JsNum → Bool
  | .nan => false
  | .inf b => !b
  | .val n d => decide ((65535 : Int) * d < n)

/-- The combined SRV weight/port rejection test from the source:
`isNaN(Number(x)) || Number(x) < 0 || Number(x) > 65535`. -/
def srvNumBad (w : String) : Bool :=
  jsNumIsNaN (jsNumber w) || jsNumLtZero (jsNumber w) || jsNumGt65535 (jsNumber w)

/-! ## The CAA regular expression -/

/-- JavaScript line terminators (not matched by `.`). -/
def isLineTerm (c : Char) : Bool :=
  c.toNat == 0x0A || c.toNat == 0x0D || c.toNat == 0x2028 || c.toNat == 0x2029

/-- Case-insensitively strip `pat` from the front of `l`. -/
def ciStrip : List Char → List Char → Option (List Char)
  | [], l => some l
  | _ :: _, [] => none
  | p :: ps, c :: cs => if p.toLower == c.toLower then ciStrip ps cs else none

/-- `(issue|issuewild|iodef)` with the `i` flag; trying `issuewild` before
`issue` reproduces the regex's backtracking. -/
def matchCaaTag (l : List Char) : Option (List Char) :=
  match ciStrip "issuewild".data l with
  | some r => some r
  | none =>
    match ciStrip "issue".data l with
    | some r => some r
    | none => ciStrip "iodef".data l

/-- `\s+(.+)$` on the remainder `r`: some nonempty all-whitespace prefix
followed by a nonempty tail free of line terminators. -/
def caaValueOk (r : List Char) : Bool :=
  (List.range r.length).any (fun k =>
    decide (1 ≤ k) && (r.take k).all jsIsWs &&
    !(r.drop k).isEmpty && (r.drop k).all (fun c => !isLineTerm c))

/-- `^(\d+)\s+(issue|issuewild|iodef)\s+(.+)$/i`. -/
def caaTest (l : List Char) : Bool :=
  let (ds, r1) := l.span Char.isDigit
  !ds.isEmpty &&
  (let (ws, r2) := r1.span jsIsWs
   !ws.isEmpty &&
   (match matchCaaTag r2 with
    | some r3 => caaValueOk r3
    | none => false))

/-! ## The validator functions (`dns-validation.ts`) -/

structure ValidationResult where
  valid : Bool
  error : Option String
deriving DecidableEq

def vOk : ValidationResult := { valid := true, error := none }

def vErr (msg : String) : ValidationResult := { valid := false, error := some msg }

/-- `validateRecordName`. -/
def validateRecordName (name : String) : ValidationResult :=
  if name == "" || jsTrim name == "" then vErr "Record name is required"
  else
    let trimmedName := jsTrim name
    if trimmedName.length > 253 then
      vErr "Record name is too long (max 253 characters)"
    else if !dnsNameTest trimmedName && trimmedName != "@" then
      vErr "Invalid record name format"
    else vOk

/-- `validateRecordContent` (the `switch` on the uppercased type,
written as an equality chain). -/
def validateRecordContent (type content : String) : ValidationResult :=
  if content == "" || jsTrim content == "" then vErr "Record content is required"
  else
    let trimmedContent := jsTrim content
    let u := jsToUpper type
    if u = "A" then
      if !ipv4Test trimmedContent then vErr "Invalid IPv4 address format" else vOk
    else if u = "AAAA" then
      if !ipv6Test trimmedContent then vErr "Invalid IPv6 address format" else vOk
    else if u = "CNAME" ∨ u = "NS" then
      if !hostnameTest trimmedContent then
        vErr ("Invalid hostname for " ++ type ++ " record")
      else vOk
    else if u = "MX" then
      if !hostnameTest trimmedContent then vErr "Invalid mail server hostname" else vOk
    else if u = "TXT" then
      if trimmedContent.length > 4096 then
        vErr "TXT record content is too long (max 4096 characters)"
      else if !txtCharsOk trimmedContent.data then
        vErr "TXT record contains invalid characters"
      else vOk
    else if u = "SRV" then
      let srvParts := splitWsFields trimmedContent
      if srvParts.length < 3 then vErr "SRV record format: weight port target"
      else
        let weight := srvParts.getD 0 ""
        let port := srvParts.getD 1 ""
        let target := srvParts.getD 2 ""
        if srvNumBad weight then vErr "Invalid SRV weight (0-65535)"
        else if srvNumBad port then vErr "Invalid SRV port (0-65535)"
        else if !hostnameTest target && target != "." then
          vErr "Invalid SRV target hostname"
        else vOk
    else if u = "CAA" then
      if !caaTest trimmedContent.data then
        vErr "Invalid CAA record format: flag tag value"
      else vOk
    else
      if trimmedContent.length > 4096 then vErr "Record content is too long" else vOk

/-- `validateTTL` (the argument is already a number, so the `isNaN` guard
cannot fire in this model). -/
def validateTTL (ttl : Int) : ValidationResult :=
  if ttl < 60 then vErr "TTL must be at least 60 seconds"
  else if ttl > 86400 * 7 then vErr "TTL cannot exceed 7 days (604800 seconds)"
  else vOk

/-- `validatePriority`. -/
def validatePriority (priority : Int) : ValidationResult :=
  if priority < 0 || priority > 65535 then
    vErr "Priority must be between 0 and 65535"
  else vOk

structure DNSRecordInput where
  type : String
  name : String
  content : String
  ttl : Option Int
  priority : Option Int
deriving DecidableEq

/-- `validateDNSRecord`. -/
def validateDNSRecord (input : DNSRecordInput) : ValidationResult :=
  let nameResult := validateRecordName input.name
  if !nameResult.valid then nameResult
  else
    let contentResult := validateRecordContent input.type input.content
    if !contentResult.valid then contentResult
    else
      let ttlResult :=
        match input.ttl with
        | some t => validateTTL t
        | none => vOk
      if !ttlResult.valid then ttlResult
      else
        if ["MX", "SRV"].contains (jsToUpper input.type) then
          match input.priority with
          | none => vErr ("Priority is required for " ++ input.type ++ " records")
          | some p =>
            let priorityResult := validatePriority p
            if !priorityResult.valid then priorityResult else vOk
        else vOk

/-! ## Byte buffers and base64 (`Buffer` in `crypto.ts`)

Buffers are `List Nat` with entries `< 256`. -/

/-- Byte-wise XOR of two equal-length buffers (`zipWith`). -/
def xorBytes (a b : List Nat) : List Nat := List.zipWith (fun x y => x ^^^ y) a b

/-- The base64 alphabet, by sextet value. -/
def b64Char (n : Nat) : Char :=
  if n < 26 then Char.ofNat (65 + n)
  else if n < 52 then Char.ofNat (97 + (n - 26))
  else if n < 62 then Char.ofNat (48 + (n - 52))
  else if n = 62 then '+' else '/'

/-- The base64 alphabet inverse; `none` for characters outside it. -/
def b64Val (c : Char) : Option Nat :=
  if 'A' ≤ c ∧ c ≤ 'Z' then some (c.toNat - 65)
  else if 'a' ≤ c ∧ c ≤ 'z' then some (c.toNat - 97 + 26)
  else if '0' ≤ c ∧ c ≤ '9' then some (c.toNat - 48 + 52)
  else if c = '+' then some 62
  else if c = '/' then some 63
  else none

/-- `Buffer.prototype.toString("base64")`: three bytes per four output
characters, `=`-padded. -/
def base64EncodeList : List Nat → List Char
  | [] => []
  | [a] => [b64Char (a / 4), b64Char (a % 4 * 16), '=', '=']
  | [a, b] => [b64Char (a / 4), b64Char (a % 4 * 16 + b / 16), b64Char (b % 16 * 4), '=']
  | a :: b :: c :: rest =>
    b64Char (a / 4) :: b64Char (a % 4 * 16 + b / 16) ::
    b64Char (b % 16 * 4 + c / 64) :: b64Char (c % 64) :: base64EncodeList rest

def base64Encode (l : List Nat) : String := ⟨base64EncodeList l⟩

/-- Reassemble bytes from a run of sextet values, dropping a trailing
partial byte the way Node's lenient decoder does. -/
def base64DecodeVals : List Nat → List Nat
  | [] => []
  | [_] => []
  | [a, b] => [a * 4 + b / 16]
  | [a, b, c] => [a * 4 + b / 16, b % 16 * 16 + c / 4]
  | a :: b :: c :: d :: rest =>
    (a * 4 + b / 16) :: (b % 16 * 16 + c / 4) :: (c % 4 * 64 + d) :: base64DecodeVals rest

/-- `Buffer.from(s, "base64")`: Node ignores characters outside the
alphabet (including the `=` padding) and decodes the rest. -/
def base64Decode (s : String) : List Nat :=
  base64DecodeVals (s.data.filterMap b64Val)

/-! ## Lossy UTF-8 (`Buffer` ↔ string conversions in `crypto.ts`) -/

/-- U+FFFD, the replacement character emitted for invalid sequences. -/
def repChar : Char := Char.ofNat 0xFFFD

/-- The UTF-8 encoding of one scalar value (`cipher.update(s, "utf8")`). -/
def utf8EncodeChar (c : Char) : List Nat :=
  let v := c.toNat
  if v < 0x80 then [v]
  else if v < 0x800 then [0xC0 + v / 64, 0x80 + v % 64]
  else if v < 0x10000 then [0xE0 + v / 4096, 0x80 + v / 64 % 64, 0x80 + v % 64]
  else [0xF0 + v / 262144, 0x80 + v / 4096 % 64, 0x80 + v / 64 % 64, 0x80 + v % 64]

def utf8EncodeList : List Char → List Nat
  | [] => []
  | c :: cs => utf8EncodeChar c ++ utf8EncodeList cs

def utf8Encode (s : String) : List Nat := utf8EncodeList s.data

/-- `buffer.toString("utf8")`: decode, replacing each maximal invalid
subpart with U+FFFD and reconsuming the byte that broke a sequence. The
recursion is fuel-counted (one unit per decoding step, and each step
consumes at least one byte) so that the definition is structural. -/
def utf8DecodeLossyF : Nat → List Nat → List Char
  | 0, _ => []
  | _ + 1, [] => []
  | f + 1, b :: rest =>
    if b < 0x80 then Char.ofNat b :: utf8DecodeLossyF f rest
    else if b < 0xC2 then repChar :: utf8DecodeLossyF f rest
    else if b < 0xE0 then
      match rest with
      | [] => [repChar]
      | b2 :: rest2 =>
        if 0x80 ≤ b2 ∧ b2 < 0xC0 then
          Char.ofNat ((b - 0xC0) * 64 + (b2 - 0x80)) :: utf8DecodeLossyF f rest2
        else repChar :: utf8DecodeLossyF f (b2 :: rest2)
    else if b < 0xF0 then
      match rest with
      | [] => [repChar]
      | b2 :: rest2 =>
        if (if b = 0xE0 then 0xA0 ≤ b2 ∧ b2 < 0xC0
            else if b = 0xED then 0x80 ≤ b2 ∧ b2 < 0xA0
            else 0x80 ≤ b2 ∧ b2 < 0xC0) then
          match rest2 with
          | [] => [repChar]
          | b3 :: rest3 =>
            if 0x80 ≤ b3 ∧ b3 < 0xC0 then
              Char.ofNat ((b - 0xE0) * 4096 + (b2 - 0x80) * 64 + (b3 - 0x80)) ::
                utf8DecodeLossyF f rest3
            else repChar :: utf8DecodeLossyF f (b3 :: rest3)
        else repChar :: utf8DecodeLossyF f (b2 :: rest2)
    else if b < 0xF5 then
      match rest with
      | [] => [repChar]
      | b2 :: rest2 =>
        if (if b = 0xF0 then 0x90 ≤ b2 ∧ b2 < 0xC0
            else if b = 0xF4 then 0x80 ≤ b2 ∧ b2 < 0x90
            else 0x80 ≤ b2 ∧ b2 < 0xC0) then
          match rest2 with
          | [] => [repChar]
          | b3 :: rest3 =>
            if 0x80 ≤ b3 ∧ b3 < 0xC0 then
              match rest3 with
              | [] => [repChar]
              | b4 :: rest4 =>
                if 0x80 ≤ b4 ∧ b4 < 0xC0 then
                  Char.ofNat ((b - 0xF0) * 262144 + (b2 - 0x80) * 4096 +
                    (b3 - 0x80) * 64 + (b4 - 0x80)) :: utf8DecodeLossyF f rest4
                else repChar :: utf8DecodeLossyF f (b4 :: rest4)
            else repChar :: utf8DecodeLossyF f (b3 :: rest3)
        else repChar :: utf8DecodeLossyF f (b2 :: rest2)
    else repChar :: utf8DecodeLossyF f rest

def utf8DecodeLossy (l : List Nat) : List Char := utf8DecodeLossyF l.length l

/-! ## JSON (`JSON.stringify` / `JSON.parse` in `crypto.ts`)

The vault serializes flat string-to-string objects, so the model covers
exactly the JSON values the vault can produce or meaningfully consume:
flat string objects and strings. (`JSON.parse` of other shapes is
approximated as a parse failure; every theorem below is insensitive to
which branch of the legacy fallback such inputs take.) -/

inductive JsValue where
  | str : String → JsValue
  | obj : List (String × String) → JsValue
deriving DecidableEq

def hexDigitChar (n : Nat) : Char :=
  if n < 10 then Char.ofNat (48 + n) else Char.ofNat (87 + n)

/-- `JSON.stringify`'s escaping of one character. -/
def escChar (c : Char) : List Char :=
  if c = '"' then ['\\', '"']
  else if c = '\\' then ['\\', '\\']
  else if c = Char.ofNat 8 then ['\\', 'b']
  else if c = Char.ofNat 9 then ['\\', 't']
  else if c = Char.ofNat 10 then ['\\', 'n']
  else if c = Char.ofNat 12 then ['\\', 'f']
  else if c = Char.ofNat 13 then ['\\', 'r']
  else if c.toNat < 0x20 then
    ['\\', 'u', '0', '0', hexDigitChar (c.toNat / 16), hexDigitChar (c.toNat % 16)]
  else [c]

def escList : List Char → List Char
  | [] => []
  | c :: cs => escChar c ++ escList cs

/-- A JSON string literal. -/
def jsonQuote (s : String) : List Char := '"' :: (escList s.data ++ ['"'])

def stringifyMembers : List (String × String) → List Char
  | [] => []
  | [(k, v)] => jsonQuote k ++ ':' :: jsonQuote v
  | (k, v) :: rest => jsonQuote k ++ ':' :: jsonQuote v ++ ',' :: stringifyMembers rest

/-- `JSON.stringify` of a flat string record (no added whitespace,
insertion-ordered keys). -/
def jsonStringifyRecord (m : List (String × String)) : String :=
  ⟨'{' :: (stringifyMembers m ++ ['}'])⟩

def jsonWsC (c : Char) : Bool := c == ' ' || c == '\t' || c == '\n' || c == '\r'

def skipJsonWs (l : List Char) : List Char := l.dropWhile jsonWsC

/-- Parse the body of a JSON string literal after the opening quote,
returning the content and the input after the closing quote. -/
def parseStrBody : List Char → Option (List Char × List Char)
  | [] => none
  | c :: rest =>
    if c = '"' then some ([], rest)
    else if c = '\\' then
      match rest with
      | [] => none
      | e :: r =>
        if e = '"' then (parseStrBody r).map (fun p => ('"' :: p.1, p.2))
        else if e = '\\' then (parseStrBody r).map (fun p => ('\\' :: p.1, p.2))
        else if e = '/' then (parseStrBody r).map (fun p => ('/' :: p.1, p.2))
        else if e = 'b' then (parseStrBody r).map (fun p => (Char.ofNat 8 :: p.1, p.2))
        else if e = 'f' then (parseStrBody r).map (fun p => (Char.ofNat 12 :: p.1, p.2))
        else if e = 'n' then (parseStrBody r).map (fun p => (Char.ofNat 10 :: p.1, p.2))
        else if e = 'r' then (parseStrBody r).map (fun p => (Char.ofNat 13 :: p.1, p.2))
        else if e = 't' then (parseStrBody r).map (fun p => (Char.ofNat 9 :: p.1, p.2))
        else if e = 'u' then
          match r with
          | h1 :: h2 :: h3 :: h4 :: r' =>
            if isHexC h1 && isHexC h2 && isHexC h3 && isHexC h4 then
              let v := natOfHexDigits [h1, h2, h3, h4]
              -- lone UTF-16 surrogates have no scalar value; approximate by U+FFFD
              let ch := if v.isValidChar then Char.ofNat v else repChar
              (parseStrBody r').map (fun p => (ch :: p.1, p.2))
            else none
          | _ => none
        else none
    else if c.toNat < 0x20 then none
    else (parseStrBody rest).map (fun p => (c :: p.1, p.2))

/-- Parse `"key":"value"` members separated by commas, up to and
including the closing brace. `fuel` bounds the member count; callers pass
at least the input length. -/
def parseMembers : Nat → List Char → Option (List (String × String) × List Char)
  | 0, _ => none
  | fuel + 1, l =>
    match skipJsonWs l with
    | '"' :: r1 =>
      match parseStrBody r1 with
      | none => none
      | some (k, r2) =>
        match skipJsonWs r2 with
        | ':' :: r3 =>
          match skipJsonWs r3 with
          | '"' :: r4 =>
            match parseStrBody r4 with
            | none => none
            | some (v, r5) =>
              match skipJsonWs r5 with
              | ',' :: r6 =>
                (parseMembers fuel r6).map (fun p => ((⟨k⟩, ⟨v⟩) :: p.1, p.2))
              | '}' :: r6 => some ([(⟨k⟩, ⟨v⟩)], r6)
              | _ => none
          | _ => none
        | _ => none
    | _ => none

/-- A JS object layers later duplicate keys over earlier ones. -/
def objInsert (fields : List (String × String)) (k v : String) : List (String × String) :=
  if fields.any (fun p => p.1 == k) then
    fields.map (fun p => if p.1 == k then (k, v) else p)
  else fields ++ [(k, v)]

def buildObj (ms : List (String × String)) : List (String × String) :=
  ms.foldl (fun acc p => objInsert acc p.1 p.2) []

/-- `JSON.parse`, on the value shapes of `JsValue`; the whole input must
be one JSON value surrounded only by whitespace. -/
def jsonParse (s : String) : Option JsValue :=
  match skipJsonWs s.data with
  | '{' :: r =>
    match skipJsonWs r with
    | '}' :: r' => if (skipJsonWs r').isEmpty then some (.obj []) else none
    | _ =>
      match parseMembers (r.length + 1) r with
      | some (ms, rest) =>
        if (skipJsonWs rest).isEmpty then some (.obj (buildObj ms)) else none
      | none => none
  | '"' :: r =>
    match parseStrBody r with
    | some (cs, rest) => if (skipJsonWs rest).isEmpty then some (.str ⟨cs⟩) else none
    | none => none
  | _ => none

/-! ## The credential vault (`crypto.ts`)

`encryptCredentials`/`decryptCredentials` are embedded over the blob
layout `salt(32) ∥ iv(16) ∥ authTag(16) ∥ ciphertext` of the source. The
cryptographic primitives live in Node's `crypto` module, outside the
audited sources; they are modelled from the spec, §4.2, as an idealized
AEAD: PBKDF2 as a deterministic key derivation, AES-256-CTR keystream
XOR for the cipher, and a deterministic 16-byte tag over
(key, iv, ciphertext) for GCM authentication. The model keeps the
structural properties every AEAD gives (decryption inverts encryption
under the same key and nonce; the tag is a function of key, nonce and
ciphertext, so a modified stored tag never verifies). Randomness
(`crypto.randomBytes`) is passed in as the `salt`/`iv` arguments. -/

/-- The message of the hard `DecryptionError` thrown by
`decryptCredentials`. -/
def decryptErrMsg : String := "Failed to decrypt credentials: Invalid or corrupted data"

/-- A mixing step for the modelled primitives. -/
def mixStep (a b : Nat) : Nat := (a * 131 + b * 31 + 7) % 100003

/-- One pseudo-random byte derived from a seed and a position, for the
modelled primitives. -/
def prfByte (seed i : Nat) : Nat :=
  ((seed + i * 7907) * (seed + i * 7907 + 13) + i * 31) % 100003 % 256

/-- Modelled from the spec, §4.2: `pbkdf2Sync(masterKey, salt, 100000,
32, "sha256")` as a deterministic 32-byte digest of master key and salt. -/
def deriveKey (masterKey : String) (salt : List Nat) : List Nat :=
  let seed := ((masterKey.data.map Char.toNat) ++ salt).foldl mixStep 97
  (List.range 32).map (fun i => prfByte seed i)

/-- Modelled from the spec, §4.2: the AES-256-GCM keystream for
(key, iv), one byte per plaintext position. -/
def keystream (key iv : List Nat) (n : Nat) : List Nat :=
  let seed := (key ++ iv).foldl mixStep 193
  (List.range n).map (fun i => prfByte seed (i + 1000))

/-- Modelled from the spec, §4.2: the 16-byte GCM authentication tag, a
deterministic function of key, iv and ciphertext. -/
def gcmTag (key iv ct : List Nat) : List Nat :=
  let seed := ((key ++ iv) ++ ct).foldl mixStep 41
  (List.range 16).map (fun i => prfByte seed (i + 2000))

/-- `encryptCredentials`: JSON-serialize, derive the key from the fresh
salt, encrypt, tag, and base64 the concatenation
`salt ∥ iv ∥ authTag ∥ ciphertext`. -/
def encryptCredentials (masterKey : String) (salt iv : List Nat)
    (data : List (String × String)) : String :=
  let plaintext := utf8Encode (jsonStringifyRecord data)
  let key := deriveKey masterKey salt
  let encrypted := xorBytes plaintext (keystream key iv plaintext.length)
  let authTag := gcmTag key iv encrypted
  base64Encode (salt ++ (iv ++ (authTag ++ encrypted)))

/-- `decryptCredentials`: slice the decoded blob, re-derive the key from
the embedded salt, verify the tag and decrypt; if anything in that path
fails (including `JSON.parse`), fall back to treating the input as legacy
plain base64 JSON; if that fails too, throw the hard `DecryptionError`. -/
def decryptCredentials (masterKey : String) (encryptedData : String) :
    Except String JsValue :=
  let combined := base64Decode encryptedData
  let salt := combined.take 32
  let iv := (combined.drop 32).take 16
  let authTag := (combined.drop 48).take 16
  let encrypted := combined.drop 64
  let key := deriveKey masterKey salt
  let aead : Option JsValue :=
    if authTag.length = 16 ∧ authTag = gcmTag key iv encrypted then
      jsonParse ⟨utf8DecodeLossy (xorBytes encrypted (keystream key iv encrypted.length))⟩
    else none
  match aead with
  | some v => .ok v
  | none =>
    match jsonParse ⟨utf8DecodeLossy combined⟩ with
    | some v => .ok v
    | none => .error decryptErrMsg

instance : DecidableEq (Except String JsValue)
  | .error a, .error b =>
    if h : a = b then .isTrue (by rw [h]) else .isFalse (fun he => h (Except.error.inj he))
  | .error _, .ok _ => .isFalse (fun he => Except.noConfusion he)
  | .ok _, .error _ => .isFalse (fun he => Except.noConfusion he)
  | .ok a, .ok b =>
    if h : a = b then .isTrue (by rw [h]) else .isFalse (fun he => h (Except.ok.inj he))

/-- Flip bit `bit` of byte `i` of a buffer. -/
def flipBit (l : List Nat) (i bit : Nat) : List Nat :=
  l.set i (l.getD i 0 ^^^ 2 ^ bit)

/-! ## The in-memory rate limiter (`rate-limit.ts`)

The mutable `rateLimitStore` map is made explicit: every operation takes
the store (an insertion-ordered association list, the model of a JS
`Map`) and the current `Date.now()` in milliseconds, and returns the new
store. -/

structure RateLimitEntry where
  count : Nat
  resetTime : Nat
deriving DecidableEq

abbrev RateLimitStore := List (String × RateLimitEntry)

structure RateLimitConfig where
  maxRequests : Nat
  windowMs : Nat
deriving DecidableEq

structure RateLimitResult where
  success : Bool
  remaining : Int
  resetTime : Nat
  retryAfterMs : Option Int
deriving DecidableEq

/-- The store key: `action:identifier`. -/
def rlKey (action identifier : String) : String := action ++ ":" ++ identifier

/-- `Map.prototype.get`. -/
def storeGet (st : RateLimitStore) (k : String) : Option RateLimitEntry :=
  (st.find? (fun e => e.1 == k)).map (fun e => e.2)

/-- `Map.prototype.set`: replace in place if the key exists, else append. -/
def storeSet (st : RateLimitStore) (k : String) (v : RateLimitEntry) : RateLimitStore :=
  if (st.find? (fun e => e.1 == k)).isSome then
    st.map (fun e => if e.1 == k then (k, v) else e)
  else st ++ [(k, v)]

/-- `Map.prototype.delete`. -/
def storeDelete (st : RateLimitStore) (k : String) : RateLimitStore :=
  st.filter (fun e => !(e.1 == k))

/-- `checkRateLimit`. -/
def checkRateLimit (action identifier : String) (config : RateLimitConfig)
    (now : Nat) (st : RateLimitStore) : RateLimitResult × RateLimitStore :=
  let key := rlKey action identifier
  match storeGet st key with
  | none =>
    ({ success := true, remaining := (config.maxRequests : Int) - 1,
       resetTime := now + config.windowMs, retryAfterMs := none },
     storeSet st key { count := 1, resetTime := now + config.windowMs })
  | some entry =>
    if now > entry.resetTime then
      ({ success := true, remaining := (config.maxRequests : Int) - 1,
         resetTime := now + config.windowMs, retryAfterMs := none },
       storeSet st key { count := 1, resetTime := now + config.windowMs })
    else if entry.count ≥ config.maxRequests then
      ({ success := false, remaining := 0, resetTime := entry.resetTime,
         retryAfterMs := some ((entry.resetTime : Int) - (now : Int)) }, st)
    else
      ({ success := true,
         remaining := (config.maxRequests : Int) - ((entry.count : Int) + 1),
         resetTime := entry.resetTime, retryAfterMs := none },
       storeSet st key { count := entry.count + 1, resetTime := entry.resetTime })

/-- `resetRateLimit`. -/
def resetRateLimit (action identifier : String) (st : RateLimitStore) : RateLimitStore :=
  storeDelete st (rlKey action identifier)

/-! ## The relational store and the sync reconciliation engine (`auth.ts`)

The drizzle/SQLite store is modelled as three row lists (insertion
ordered, as SQLite returns them for the queries the engine issues).
The provider adapter layer (`src/lib/providers`, not part of the audited
sources) is modelled from the spec, §4.3: each engine call takes an
`AdapterEnv` giving the outcome of credential decryption, adapter
construction, and of each remote method invoked during the call; `nanoid`
is an explicit id supply, `new Date()` an explicit `now`. -/

structure ProviderRow where
  id : String
  userId : String
  name : String
  label : String
  credentials : String
  status : String
  lastSyncAt : Option Nat
  updatedAt : Option Nat
deriving DecidableEq

structure DomainRow where
  id : String
  providerId : String
  name : String
  remoteId : String
  status : String
  syncedAt : Option Nat
  updatedAt : Option Nat
deriving DecidableEq

structure RecordRow where
  id : String
  domainId : String
  remoteId : String
  type : String
  name : String
  content : String
  ttl : Int
  priority : Option Int
  proxied : Bool
  extra : Option String
  syncedAt : Option Nat
  updatedAt : Option Nat
deriving DecidableEq

structure Db where
  providers : List ProviderRow
  domains : List DomainRow
  records : List RecordRow
deriving DecidableEq

/-- A remote domain as returned by `provider.listDomains()` (§4.3). -/
structure RemoteDomain where
  id : String
  name : String
  status : String
deriving DecidableEq

/-- A remote record as returned by the adapter record methods (§4.3). -/
structure RemoteRecord where
  id : String
  type : String
  name : String
  content : String
  ttl : Int
  priority : Option Int
  proxied : Option Bool
  extra : Option String
deriving DecidableEq

/-- Modelled from the spec, §4.3/§4.2: the outcome of the external calls
an engine operation makes — `decryptCredentials` (throws on corrupt
blobs), `createProvider` (throws on unknown provider types) and each
remote adapter method (`Except` error = thrown `ProviderAPIError`). -/
structure AdapterEnv where
  decryptOk : Bool
  createOk : Bool
  listDomains : Except String (List RemoteDomain)
  listRecords : Except String (List RemoteRecord)
  createRecordR : Except String RemoteRecord
  updateRecordR : Except String RemoteRecord
  deleteRecordR : Except String Unit

instance : DecidableEq (Except String (List RemoteDomain)) := fun a b => by
  cases a <;> cases b <;> simp [Except.error.injEq, Except.ok.injEq] <;> infer_instance

instance : DecidableEq (Except String (List RemoteRecord)) := fun a b => by
  cases a <;> cases b <;> simp [Except.error.injEq, Except.ok.injEq] <;> infer_instance

instance : DecidableEq (Except String RemoteRecord) := fun a b => by
  cases a <;> cases b <;> simp [Except.error.injEq, Except.ok.injEq] <;> infer_instance

instance : DecidableEq (Except String Unit) := fun a b => by
  cases a <;> cases b <;> simp [Except.error.injEq, Except.ok.injEq] <;> infer_instance

/-- The `{ success, error?, count? }` result shape of the sync actions. -/
structure SyncResult where
  success : Bool
  error : Option String
  count : Option Nat
deriving DecidableEq

/-- The chain `decryptCredentials` → `createProvider` → first adapter
call, as it runs inside an engine `try` block. -/
def adapterAttempt {α : Type} (env : AdapterEnv) (call : Except String α) :
    Except String α :=
  if !env.decryptOk then .error decryptErrMsg
  else if !env.createOk then .error "Unknown provider"
  else call

/-- The `db.select().from(providers).where(id = providerId and userId = userId)` lookup. -/
def findProviderRow (db : Db) (providerId userId : String) : Option ProviderRow :=
  db.providers.find? (fun p => p.id == providerId && p.userId == userId)

/-- The catch-block update: provider status to `"error"`. -/
def setProviderError (db : Db) (providerId : String) (now : Nat) : Db :=
  { db with providers := db.providers.map (fun p =>
      if p.id == providerId then { p with status := "error", updatedAt := some now } else p) }

/-- The success-path update: provider status `"active"`, `lastSyncAt` stamped. -/
def setProviderSynced (db : Db) (providerId : String) (now : Nat) : Db :=
  { db with providers := db.providers.map (fun p =>
      if p.id == providerId then
        { p with status := "active", lastSyncAt := some now, updatedAt := some now }
      else p) }

/-- One iteration of the `syncProvider` domain loop: look up a local
domain by `(providerId, remoteId)`; update it in place if found, insert a
fresh row otherwise (timestamp defaults per the schema). -/
def upsertDomain (providerId : String) (now : Nat) (ds : List DomainRow)
    (rd : RemoteDomain) (freshId : String) : List DomainRow :=
  match ds.find? (fun d => d.providerId == providerId && d.remoteId == rd.id) with
  | some existingDomain =>
    ds.map (fun d =>
      if d.id == existingDomain.id then
        { d with name := rd.name, status := rd.status,
                 syncedAt := some now, updatedAt := some now }
      else d)
  | none =>
    ds ++ [{ id := freshId, providerId := providerId, name := rd.name,
             remoteId := rd.id, status := rd.status,
             syncedAt := some now, updatedAt := some now }]

/-- The `for (const remoteDomain of remoteDomains)` loop; `n` indexes the
`nanoid` supply. -/
def syncDomainsLoop (providerId : String) (now : Nat) (idg : Nat → String) :
    List DomainRow → List RemoteDomain → Nat → List DomainRow
  | ds, [], _ => ds
  | ds, rd :: rds, n =>
    syncDomainsLoop providerId now idg (upsertDomain providerId now ds rd (idg n)) rds (n + 1)

/-- `syncProvider` (auth.ts): look up the provider; decrypt, build the
adapter, `listDomains()`; upsert each remote domain; stamp the provider
active on success, flip it to `error` in the catch block. -/
def syncProvider (db : Db) (userId providerId : String) (env : AdapterEnv)
    (idg : Nat → String) (now : Nat) : SyncResult × Db :=
  match findProviderRow db providerId userId with
  | none => ({ success := false, error := some "Provider not found", count := none }, db)
  | some _ =>
    match adapterAttempt env env.listDomains with
    | .error e =>
      ({ success := false, error := some e, count := none }, setProviderError db providerId now)
    | .ok remoteDomains =>
      let db1 := { db with domains := syncDomainsLoop providerId now idg db.domains remoteDomains 0 }
      ({ success := true, error := none, count := some remoteDomains.length },
       setProviderSynced db1 providerId now)

/-- The `domains innerJoin providers` lookup shared by `getProviderForDomain`
and `syncDomainRecords`: the domain row by id together with its owning
provider row, filtered by the session user. -/
def findDomainJoin (db : Db) (domainId userId : String) : Option (DomainRow × ProviderRow) :=
  match db.domains.find? (fun d => d.id == domainId) with
  | none => none
  | some d =>
    match db.providers.find? (fun p => p.id == d.providerId && p.userId == userId) with
    | none => none
    | some p => some (d, p)

/-- The rows inserted by `syncDomainRecords` for the fetched remote
records, in order (`priority ?? null`, `proxied ?? false`, `extra`
stringified when present, timestamps per schema defaults). -/
def newRecordRows (domainId : String) (now : Nat) (idg : Nat → String) :
    List RemoteRecord → Nat → List RecordRow
  | [], _ => []
  | r :: rs, n =>
    { id := idg n, domainId := domainId, remoteId := r.id, type := r.type,
      name := r.name, content := r.content, ttl := r.ttl,
      priority := r.priority, proxied := r.proxied.getD false,
      extra := r.extra, syncedAt := some now, updatedAt := some now } ::
    newRecordRows domainId now idg rs (n + 1)

/-- `syncDomainRecords` (auth.ts): join lookup; decrypt/build/`listRecords`;
on success delete every local record of the domain, insert the remote
records afresh, and stamp the domain's `syncedAt`; on any failure return
the error with the store untouched. -/
def syncDomainRecords (db : Db) (userId domainId : String) (env : AdapterEnv)
    (idg : Nat → String) (now : Nat) : SyncResult × Db :=
  match findDomainJoin db domainId userId with
  | none => ({ success := false, error := some "Domain not found", count := none }, db)
  | some _ =>
    match adapterAttempt env env.listRecords with
    | .error e => ({ success := false, error := some e, count := none }, db)
    | .ok remoteRecords =>
      let kept := db.records.filter (fun r => !(r.domainId == domainId))
      let db1 := { db with records := kept ++ newRecordRows domainId now idg remoteRecords 0 }
      let db2 := { db1 with domains := db1.domains.map (fun d =>
        if d.id == domainId then { d with syncedAt := some now, updatedAt := some now } else d) }
      ({ success := true, error := none, count := some remoteRecords.length }, db2)

/-- `CreateRecordInput` (providers/types.ts shape used by `createRecord`). -/
structure CreateRecordInput where
  type : String
  name : String
  content : String
  ttl : Option Int
  priority : Option Int
deriving DecidableEq

/-- `UpdateRecordInput`: every field optional. -/
structure UpdateRecordInput where
  type : Option String
  name : Option String
  content : Option String
  ttl : Option Int
  priority : Option Int
deriving DecidableEq

/-- The `{ success, error?, record? }` result shape of the record actions. -/
structure RecordOpResult where
  success : Bool
  error : Option String
  record : Option RemoteRecord
deriving DecidableEq

/-- `getProviderForDomain` inside the record actions' `try` blocks: the
join lookup (throws `"Domain not found"`), then `decryptCredentials` and
`createProvider`. -/
def resolveProvider (db : Db) (userId domainId : String) (env : AdapterEnv) :
    Except String Unit :=
  match findDomainJoin db domainId userId with
  | none => .error "Domain not found"
  | some _ =>
    if !env.decryptOk then .error decryptErrMsg
    else if !env.createOk then .error "Unknown provider"
    else .ok ()

/-- `createRecord` (auth.ts): validate, resolve the domain's provider,
call `provider.createRecord`, and only then insert the mirrored row. -/
def createRecord (db : Db) (userId domainId : String) (input : CreateRecordInput)
    (env : AdapterEnv) (newId : String) (now : Nat) : RecordOpResult × Db :=
  let validation := validateDNSRecord
    { type := input.type, name := input.name, content := input.content,
      ttl := input.ttl, priority := input.priority }
  if !validation.valid then
    ({ success := false, error := validation.error, record := none }, db)
  else
    match (resolveProvider db userId domainId env).bind (fun _ => env.createRecordR) with
    | .error e => ({ success := false, error := some e, record := none }, db)
    | .ok remoteRecord =>
      let row : RecordRow :=
        { id := newId, domainId := domainId, remoteId := remoteRecord.id,
          type := remoteRecord.type, name := remoteRecord.name,
          content := remoteRecord.content, ttl := remoteRecord.ttl,
          priority := remoteRecord.priority,
          proxied := remoteRecord.proxied.getD false, extra := none,
          syncedAt := some now, updatedAt := some now }
      ({ success := true, error := none, record := some remoteRecord },
       { db with records := db.records ++ [row] })

/-- JavaScript truthiness of an optional string field (`undefined` and
`""` are falsy). -/
def strTruthy : Option String → Bool
  | none => false
  | some s => s != ""

/-- `updateRecord` (auth.ts): validation runs only when `type`, `name`
and `content` are all truthy; then resolve, look up the local row for its
remote id, call `provider.updateRecord`, and mirror the response in
place. -/
def updateRecord (db : Db) (userId domainId recordId : String)
    (input : UpdateRecordInput) (env : AdapterEnv) (now : Nat) : RecordOpResult × Db :=
  let validation :=
    if strTruthy input.type && strTruthy input.name && strTruthy input.content then
      validateDNSRecord
        { type := input.type.getD "", name := input.name.getD "",
          content := input.content.getD "", ttl := input.ttl, priority := input.priority }
    else vOk
  if !validation.valid then
    ({ success := false, error := validation.error, record := none }, db)
  else
    match resolveProvider db userId domainId env with
    | .error e => ({ success := false, error := some e, record := none }, db)
    | .ok _ =>
      match db.records.find? (fun r => r.id == recordId && r.domainId == domainId) with
      | none => ({ success := false, error := some "Record not found", record := none }, db)
      | some _ =>
        match env.updateRecordR with
        | .error e => ({ success := false, error := some e, record := none }, db)
        | .ok remoteRecord =>
          ({ success := true, error := none, record := some remoteRecord },
           { db with records := db.records.map (fun r =>
              if r.id == recordId then
                { r with type := remoteRecord.type, name := remoteRecord.name,
                         content := remoteRecord.content, ttl := remoteRecord.ttl,
                         priority := remoteRecord.priority,
                         proxied := remoteRecord.proxied.getD false,
                         syncedAt := some now, updatedAt := some now }
              else r) })

/-- `deleteRecord` (auth.ts): resolve, look up the local row, call
`provider.deleteRecord`, and only then delete the local row. -/
def deleteRecord (db : Db) (userId domainId recordId : String)
    (env : AdapterEnv) : RecordOpResult × Db :=
  match resolveProvider db userId domainId env with
  | .error e => ({ success := false, error := some e, record := none }, db)
  | .ok _ =>
    match db.records.find? (fun r => r.id == recordId && r.domainId == domainId) with
    | none => ({ success := false, error := some "Record not found", record := none }, db)
    | some _ =>
      match env.deleteRecordR with
      | .error e => ({ success := false, error := some e, record := none }, db)
      | .ok _ =>
        ({ success := true, error := none, record := none },
         { db with records := db.records.filter (fun r => !(r.id == recordId)) })

/-! ## Auxiliary definitions for the statements -/

/-- The uniqueness invariant on `(providerId, remoteId)` pairs (§3): no
two Domain rows share the pair. -/
def pairNodup (ds : List DomainRow) : Prop :=
  (ds.map (fun d => (d.providerId, d.remoteId))).Nodup

/-- After a sync, the first Domain row matching a remote domain's
`(providerId, remoteId)` pair carries that remote domain's name and
status and the sync timestamps. -/
def SyncedFor (providerId : String) (now : Nat) (ds : List DomainRow)
    (rd : RemoteDomain) : Prop :=
  ∃ d, ds.find? (fun x => x.providerId == providerId && x.remoteId == rd.id) = some d ∧
    d.name = rd.name ∧ d.status = rd.status ∧ d.syncedAt = some now ∧ d.updatedAt = some now

/-- The mirrored fields of a local record row, for comparison with the
remote listing. -/
def localRecordView (r : RecordRow) :
    String × String × String × String × Int × Option Int × Bool :=
  (r.remoteId, r.type, r.name, r.content, r.ttl, r.priority, r.proxied)

/-- The corresponding view of a remote record (`priority ?? null`,
`proxied ?? false`). -/
def remoteRecordView (r : RemoteRecord) :
    String × String × String × String × Int × Option Int × Bool :=
  (r.id, r.type, r.name, r.content, r.ttl, r.priority, r.proxied.getD false)

/-- Whether a vault call returned successfully. -/
def isOkResult : Except String JsValue → Bool
  | .ok _ => true
  | .error _ => false

/-- A concrete 32-byte salt (a draw of `crypto.randomBytes(32)`) under
which tag-tampering drives `decryptCredentials` into the legacy branch. -/
def tamperSalt : List Nat :=
  [34, 35, 45, 36, 35, 65, 66, 67, 68, 69, 70, 71, 72, 73, 74, 75, 76, 77,
   78, 79, 80, 81, 82, 83, 84, 85, 86, 87, 88, 89, 90, 65]

/-- A concrete 16-byte iv (a draw of `crypto.randomBytes(16)`). -/
def tamperIv : List Nat :=
  [97, 98, 99, 100, 101, 102, 103, 104, 105, 106, 107, 108, 109, 110, 111, 112]

/-! Sample rows and adapter environments used by witnesses. -/

def sampleProvider : ProviderRow :=
  { id := "p1", userId := "u1", name := "cloudflare", label := "CF",
    credentials := "blob", status := "active", lastSyncAt := none, updatedAt := none }

def sampleDomain : DomainRow :=
  { id := "d1", providerId := "p1", name := "example.com", remoteId := "rd1",
    status := "active", syncedAt := none, updatedAt := none }

def sampleRecord : RecordRow :=
  { id := "r1", domainId := "d1", remoteId := "rr1", type := "A", name := "www",
    content := "1.2.3.4", ttl := 300, priority := none, proxied := false,
    extra := none, syncedAt := none, updatedAt := none }

def sampleDb : Db :=
  { providers := [sampleProvider], domains := [sampleDomain], records := [sampleRecord] }

def sampleRemoteDomain : RemoteDomain :=
  { id := "rd1", name := "example.com", status := "active" }

def sampleRemoteRecord : RemoteRecord :=
  { id := "rr9", type := "A", name := "www", content := "9.9.9.9", ttl := 600,
    priority := none, proxied := some true, extra := none }

/-- An environment in which every remote adapter method fails. -/
def envAllError : AdapterEnv :=
  { decryptOk := true, createOk := true, listDomains := .error "boom",
    listRecords := .error "boom", createRecordR := .error "boom",
    updateRecordR := .error "boom", deleteRecordR := .error "boom" }

/-- An environment in which every remote adapter method succeeds. -/
def envOkSample : AdapterEnv :=
  { decryptOk := true, createOk := true, listDomains := .ok [sampleRemoteDomain],
    listRecords := .ok [sampleRemoteRecord], createRecordR := .ok sampleRemoteRecord,
    updateRecordR := .ok sampleRemoteRecord, deleteRecordR := .ok () }

end DnsManager

namespace DnsManager

/-! # Theorems -/

/-- C8, counterexample: the spec requires SRV content to be exactly three
whitespace-separated fields, but the code accepts `"0 0 a x"`, which has
four fields. -/
theorem srvValidation_counterexample :
    (splitWsFields (jsTrim "0 0 a x")).length = 4 ∧
    validateRecordContent "SRV" "0 0 a x" = vOk := by
  constructor <;> decide

/-- An empty `content` string trims to the empty string, so the guard
`content == "" || jsTrim content == ""` collapses to its second disjunct. -/
theorem contentGuard_iff (content : String) :
    (content == "" || jsTrim content == "") = true ↔ jsTrim content = "" := by
  constructor
  · intro h
    rcases Bool.or_eq_true_iff.mp h with h | h
    · have : content = "" := beq_iff_eq.mp h
      subst this; rfl
    · exact beq_iff_eq.mp h
  · intro h
    exact Bool.or_eq_true_iff.mpr (Or.inr (beq_iff_eq.mpr h))

/-- The accept/reject decision of the SRV branch, as a function of the
split field list. -/
theorem srvCoreValidIff (parts : List String) :
    ((if parts.length < 3 then vErr "SRV record format: weight port target"
      else
        if srvNumBad (parts.getD 0 "") then vErr "Invalid SRV weight (0-65535)"
        else if srvNumBad (parts.getD 1 "") then vErr "Invalid SRV port (0-65535)"
        else if !hostnameTest (parts.getD 2 "") && parts.getD 2 "" != "." then
          vErr "Invalid SRV target hostname"
        else vOk).valid = true) ↔
    (3 ≤ parts.length ∧
     srvNumBad (parts.getD 0 "") = false ∧
     srvNumBad (parts.getD 1 "") = false ∧
     (hostnameTest (parts.getD 2 "") = true ∨ parts.getD 2 "" = ".")) := by
  split_ifs with h1 h2 h3 h4
  · simp only [vErr]
    constructor
    · intro h; cases h
    · intro h; omega
  · simp only [vErr]
    constructor
    · intro h; cases h
    · rintro ⟨-, hw, -⟩; rw [h2] at hw; cases hw
  · simp only [vErr]
    constructor
    · intro h; cases h
    · rintro ⟨-, -, hp, -⟩; rw [h3] at hp; cases hp
  · simp only [vErr]
    constructor
    · intro h; cases h
    · rintro ⟨-, -, -, ht⟩
      simp only [Bool.and_eq_true, Bool.not_eq_true', bne_iff_ne] at h4
      rcases ht with ht | ht
      · rw [h4.1] at ht; cases ht
      · exact (h4.2 ht).elim
  · simp only [vOk, true_iff]
    refine ⟨by omega, by simpa using h2, by simpa using h3, ?_⟩
    simp only [Bool.and_eq_true, Bool.not_eq_true', bne_iff_ne, not_and] at h4
    by_cases hh : hostnameTest (parts.getD 2 "") = true
    · exact Or.inl hh
    · exact Or.inr (not_not.mp (h4 (by simpa using hh)))

/-- C8 (amended): `validateRecordContent` accepts SRV content exactly when
it has at least three whitespace-separated fields whose first two are
numeric values in [0,65535] and whose third is a hostname or the literal
`"."`; additional trailing fields are ignored, not rejected. -/
theorem srvValidation_amended (content : String) :
    (validateRecordContent "SRV" content).valid = true ↔
    (jsTrim content ≠ "" ∧
     3 ≤ (splitWsFields (jsTrim content)).length ∧
     srvNumBad ((splitWsFields (jsTrim content)).getD 0 "") = false ∧
     srvNumBad ((splitWsFields (jsTrim content)).getD 1 "") = false ∧
     (hostnameTest ((splitWsFields (jsTrim content)).getD 2 "") = true ∨
      (splitWsFields (jsTrim content)).getD 2 "" = ".")) := by
  unfold validateRecordContent
  by_cases h0 : jsTrim content = ""
  · rw [if_pos ((contentGuard_iff content).mpr h0)]
    simp [vErr, h0]
  · rw [if_neg (fun hc => h0 ((contentGuard_iff content).mp hc)),
        if_neg (show ¬(jsToUpper "SRV" = "A") by decide),
        if_neg (show ¬(jsToUpper "SRV" = "AAAA") by decide),
        if_neg (show ¬(jsToUpper "SRV" = "CNAME" ∨ jsToUpper "SRV" = "NS") by decide),
        if_neg (show ¬(jsToUpper "SRV" = "MX") by decide),
        if_neg (show ¬(jsToUpper "SRV" = "TXT") by decide),
        if_pos (show jsToUpper "SRV" = "SRV" by decide)]
    exact (srvCoreValidIff (splitWsFields (jsTrim content))).trans
      (and_iff_right h0).symm

/-! ### Rate limiter: C9 and C10 -/

theorem find?_replaceKey (k : String) (v : RateLimitEntry) :
    ∀ st : RateLimitStore, (st.find? (fun e => e.1 == k)).isSome →
      (st.map (fun e => if e.1 == k then (k, v) else e)).find? (fun e => e.1 == k) =
        some (k, v)
  | [], h => by simp at h
  | e :: rest, h => by
    by_cases he : (e.1 == k) = true
    · rw [List.map_cons, if_pos he]
      exact @List.find?_cons_of_pos _ (fun x => x.1 == k) (k, v)
        (rest.map (fun e => if e.1 == k then (k, v) else e)) (by simp)
    · rw [List.map_cons, if_neg he,
        @List.find?_cons_of_neg _ (fun x => x.1 == k) e
          (rest.map (fun e => if e.1 == k then (k, v) else e)) he]
      rw [@List.find?_cons_of_neg _ (fun x => x.1 == k) e rest he] at h
      exact find?_replaceKey k v rest h

theorem find?_appendKey (k : String) (v : RateLimitEntry) :
    ∀ st : RateLimitStore, ¬(st.find? (fun e => e.1 == k)).isSome →
      (st ++ [(k, v)]).find? (fun e => e.1 == k) = some (k, v)
  | [], _ => by simp
  | e :: rest, h => by
    have he : ¬((e.1 == k) = true) := by
      intro hc
      exact h (by
        rw [@List.find?_cons_of_pos _ (fun x => x.1 == k) e rest hc]
        rfl)
    rw [List.cons_append,
      @List.find?_cons_of_neg _ (fun x => x.1 == k) e (rest ++ [(k, v)]) he]
    rw [@List.find?_cons_of_neg _ (fun x => x.1 == k) e rest he] at h
    exact find?_appendKey k v rest h

theorem storeGet_storeSet_self (st : RateLimitStore) (k : String) (v : RateLimitEntry) :
    storeGet (storeSet st k v) k = some v := by
  unfold storeGet storeSet
  by_cases h : (st.find? (fun e => e.1 == k)).isSome
  · rw [if_pos h, find?_replaceKey k v st h]
    rfl
  · rw [if_neg h, find?_appendKey k v st h]
    rfl

theorem storeGet_storeDelete_self (st : RateLimitStore) (k : String) :
    storeGet (storeDelete st k) k = none := by
  unfold storeGet storeDelete
  rw [List.find?_eq_none.mpr]
  · rfl
  · intro e he
    have := List.of_mem_filter he
    simpa using this

/-- C10: after `resetRateLimit`, the next `checkRateLimit` for the same
action and identifier always succeeds with `remaining = maxRequests - 1`
and `resetTime = now + windowMs`, whatever the prior call history was. -/
theorem rateLimitReset (action identifier : String) (config : RateLimitConfig)
    (now : Nat) (st : RateLimitStore) :
    (checkRateLimit action identifier config now
        (resetRateLimit action identifier st)).1 =
      { success := true, remaining := (config.maxRequests : Int) - 1,
        resetTime := now + config.windowMs, retryAfterMs := none } := by
  simp only [checkRateLimit, resetRateLimit]
  rw [storeGet_storeDelete_self]

/-- C9: for `maxRequests = 5, windowMs = 900000` and a key with no live
entry, five calls inside the window succeed, the sixth fails with a
positive `retryAfterMs`, and a call after the window's reset time has
elapsed succeeds again. -/
theorem rateLimitWindow (action identifier : String) (st : RateLimitStore)
    (t1 t2 t3 t4 t5 t6 t7 : Nat)
    (hfresh : storeGet st (rlKey action identifier) = none)
    (h12 : t1 ≤ t2) (h23 : t2 ≤ t3) (h34 : t3 ≤ t4) (h45 : t4 ≤ t5) (h56 : t5 ≤ t6)
    (h6 : t6 < t1 + 900000) (h7 : t1 + 900000 < t7) :
    (checkRateLimit action identifier ⟨5, 900000⟩ t1 st).1.success = true ∧
    (checkRateLimit action identifier ⟨5, 900000⟩ t2
      (checkRateLimit action identifier ⟨5, 900000⟩ t1 st).2).1.success = true ∧
    (checkRateLimit action identifier ⟨5, 900000⟩ t3
      (checkRateLimit action identifier ⟨5, 900000⟩ t2
        (checkRateLimit action identifier ⟨5, 900000⟩ t1 st).2).2).1.success = true ∧
    (checkRateLimit action identifier ⟨5, 900000⟩ t4
      (checkRateLimit action identifier ⟨5, 900000⟩ t3
        (checkRateLimit action identifier ⟨5, 900000⟩ t2
          (checkRateLimit action identifier ⟨5, 900000⟩ t1 st).2).2).2).1.success = true ∧
    (checkRateLimit action identifier ⟨5, 900000⟩ t5
      (checkRateLimit action identifier ⟨5, 900000⟩ t4
        (checkRateLimit action identifier ⟨5, 900000⟩ t3
          (checkRateLimit action identifier ⟨5, 900000⟩ t2
            (checkRateLimit action identifier ⟨5, 900000⟩ t1 st).2).2).2).2).1.success = true ∧
    (checkRateLimit action identifier ⟨5, 900000⟩ t6
      (checkRateLimit action identifier ⟨5, 900000⟩ t5
        (checkRateLimit action identifier ⟨5, 900000⟩ t4
          (checkRateLimit action identifier ⟨5, 900000⟩ t3
            (checkRateLimit action identifier ⟨5, 900000⟩ t2
              (checkRateLimit action identifier ⟨5, 900000⟩ t1 st).2).2).2).2).2).1 =
      { success := false, remaining := 0, resetTime := t1 + 900000,
        retryAfterMs := some ((t1 : Int) + 900000 - (t6 : Int)) } ∧
    0 < (t1 : Int) + 900000 - (t6 : Int) ∧
    (checkRateLimit action identifier ⟨5, 900000⟩ t7
      (checkRateLimit action identifier ⟨5, 900000⟩ t6
        (checkRateLimit action identifier ⟨5, 900000⟩ t5
          (checkRateLimit action identifier ⟨5, 900000⟩ t4
            (checkRateLimit action identifier ⟨5, 900000⟩ t3
              (checkRateLimit action identifier ⟨5, 900000⟩ t2
                (checkRateLimit action identifier ⟨5, 900000⟩ t1 st).2).2).2).2).2).2).1.success
      = true := by
  set key := rlKey action identifier with hkey
  have e1 : checkRateLimit action identifier ⟨5, 900000⟩ t1 st =
      ({ success := true, remaining := 4, resetTime := t1 + 900000, retryAfterMs := none },
       storeSet st key ⟨1, t1 + 900000⟩) := by
    simp only [checkRateLimit]
    rw [← hkey, hfresh]
    rfl
  have step : ∀ (c : Nat) (stc : RateLimitStore) (t : Nat),
      storeGet stc key = some ⟨c, t1 + 900000⟩ → t ≤ t6 → c < 5 →
      checkRateLimit action identifier ⟨5, 900000⟩ t stc =
        ({ success := true, remaining := (5 : Int) - ((c : Int) + 1),
           resetTime := t1 + 900000, retryAfterMs := none },
         storeSet stc key ⟨c + 1, t1 + 900000⟩) := by
    intro c stc t hget ht hc
    simp only [checkRateLimit]
    rw [← hkey, hget]
    dsimp only
    rw [if_neg (by omega), if_neg (by omega)]
    rfl
  have e2 := step 1 (checkRateLimit action identifier ⟨5, 900000⟩ t1 st).2 t2 (by rw [e1]; exact storeGet_storeSet_self ..) (by omega) (by omega)
  have e3 := step 2 (checkRateLimit action identifier ⟨5, 900000⟩ t2 (checkRateLimit action identifier ⟨5, 900000⟩ t1 st).2).2 t3 (by rw [e2]; exact storeGet_storeSet_self ..) (by omega) (by omega)
  have e4 := step 3 (checkRateLimit action identifier ⟨5, 900000⟩ t3 (checkRateLimit action identifier ⟨5, 900000⟩ t2 (checkRateLimit action identifier ⟨5, 900000⟩ t1 st).2).2).2 t4 (by rw [e3]; exact storeGet_storeSet_self ..) (by omega) (by omega)
  have e5 := step 4 (checkRateLimit action identifier ⟨5, 900000⟩ t4 (checkRateLimit action identifier ⟨5, 900000⟩ t3 (checkRateLimit action identifier ⟨5, 900000⟩ t2 (checkRateLimit action identifier ⟨5, 900000⟩ t1 st).2).2).2).2 t5 (by rw [e4]; exact storeGet_storeSet_self ..) (by omega) (by omega)
  have stepFail : ∀ (stc : RateLimitStore) (t : Nat),
      storeGet stc key = some ⟨5, t1 + 900000⟩ → t ≤ t1 + 900000 →
      checkRateLimit action identifier ⟨5, 900000⟩ t stc =
        ({ success := false, remaining := 0, resetTime := t1 + 900000,
           retryAfterMs := some (((t1 + 900000 : Nat) : Int) - (t : Int)) }, stc) := by
    intro stc t hget ht
    simp only [checkRateLimit]
    rw [← hkey, hget]
    dsimp only
    rw [if_neg (by omega), if_pos (by omega)]
  have stepExpire : ∀ (stc : RateLimitStore) (t : Nat),
      storeGet stc key = some ⟨5, t1 + 900000⟩ → t > t1 + 900000 →
      (checkRateLimit action identifier ⟨5, 900000⟩ t stc).1.success = true := by
    intro stc t hget ht
    simp only [checkRateLimit]
    rw [← hkey, hget]
    dsimp only
    rw [if_pos (by omega)]
  have e6 := stepFail (checkRateLimit action identifier ⟨5, 900000⟩ t5 (checkRateLimit action identifier ⟨5, 900000⟩ t4 (checkRateLimit action identifier ⟨5, 900000⟩ t3 (checkRateLimit action identifier ⟨5, 900000⟩ t2 (checkRateLimit action identifier ⟨5, 900000⟩ t1 st).2).2).2).2).2 t6 (by rw [e5]; exact storeGet_storeSet_self ..) (by omega)
  refine ⟨by rw [e1], by rw [e2], by rw [e3], by rw [e4], by rw [e5], ?_, by omega, ?_⟩
  · rw [e6]
    dsimp only
    push_cast
    rfl
  · refine stepExpire (checkRateLimit action identifier ⟨5, 900000⟩ t6 (checkRateLimit action identifier ⟨5, 900000⟩ t5 (checkRateLimit action identifier ⟨5, 900000⟩ t4 (checkRateLimit action identifier ⟨5, 900000⟩ t3 (checkRateLimit action identifier ⟨5, 900000⟩ t2 (checkRateLimit action identifier ⟨5, 900000⟩ t1 st).2).2).2).2).2).2 t7 ?_ (by omega)
    rw [e6, e5]
    exact storeGet_storeSet_self ..

/-- C9, witness: the hypotheses of `rateLimitWindow` hold for the action
`login`, the identifier `1.2.3.4`, an empty store and call times
0,1,2,3,4,5,900001. -/
theorem rateLimitWindow_witness :
    (checkRateLimit "login" "1.2.3.4" ⟨5, 900000⟩ 0 []).1.success = true :=
  (rateLimitWindow "login" "1.2.3.4" [] 0 1 2 3 4 5 900001 rfl (by decide)
    (by decide) (by decide) (by decide) (by decide) (by decide) (by decide)).1

/-! ### Sync engine: C3, C4, C5, C6 -/

theorem adapterAttempt_reduce {α : Type} (env : AdapterEnv) (call : Except String α)
    (hdec : env.decryptOk = true) (hcre : env.createOk = true) :
    adapterAttempt env call = call := by
  simp [adapterAttempt, hdec, hcre]

/-- C5: for each single-record mutation, a failing remote adapter call
leaves the local store untouched and produces a failure outcome; the
local row is only ever written after the remote call has succeeded. -/
theorem mutationRemoteFirst (db : Db) (userId domainId recordId : String)
    (cin : CreateRecordInput) (uin : UpdateRecordInput) (env : AdapterEnv)
    (newId : String) (now : Nat) :
    (∀ e, env.createRecordR = .error e →
      (createRecord db userId domainId cin env newId now).1.success = false ∧
      (createRecord db userId domainId cin env newId now).2 = db) ∧
    (∀ e, env.updateRecordR = .error e →
      (updateRecord db userId domainId recordId uin env now).1.success = false ∧
      (updateRecord db userId domainId recordId uin env now).2 = db) ∧
    (∀ e, env.deleteRecordR = .error e →
      (deleteRecord db userId domainId recordId env).1.success = false ∧
      (deleteRecord db userId domainId recordId env).2 = db) := by
  refine ⟨?_, ?_, ?_⟩
  · intro e henv
    unfold createRecord
    by_cases hv : (validateDNSRecord
        { type := cin.type, name := cin.name, content := cin.content,
          ttl := cin.ttl, priority := cin.priority }).valid
    · rw [if_neg (by simp [hv]), henv]
      cases hr : resolveProvider db userId domainId env with
      | error e2 => exact ⟨rfl, rfl⟩
      | ok u => exact ⟨rfl, rfl⟩
    · rw [if_pos (by simp [hv])]
      exact ⟨rfl, rfl⟩
  · intro e henv
    unfold updateRecord
    rcases Bool.eq_false_or_eq_true
      ((if strTruthy uin.type && strTruthy uin.name && strTruthy uin.content then
          validateDNSRecord
            { type := uin.type.getD "", name := uin.name.getD "",
              content := uin.content.getD "", ttl := uin.ttl, priority := uin.priority }
        else vOk).valid) with hv | hv
    · rw [if_neg (by rw [hv]; decide)]
      cases hr : resolveProvider db userId domainId env with
      | error e2 => exact ⟨rfl, rfl⟩
      | ok u =>
        cases hf : db.records.find? (fun r => r.id == recordId && r.domainId == domainId) with
        | none => exact ⟨rfl, rfl⟩
        | some lr => rw [henv]; exact ⟨rfl, rfl⟩
    · rw [if_pos (by rw [hv]; decide)]
      exact ⟨rfl, rfl⟩
  · intro e henv
    unfold deleteRecord
    cases hr : resolveProvider db userId domainId env with
    | error e2 => exact ⟨rfl, rfl⟩
    | ok u =>
      cases hf : db.records.find? (fun r => r.id == recordId && r.domainId == domainId) with
      | none => exact ⟨rfl, rfl⟩
      | some lr => rw [henv]; exact ⟨rfl, rfl⟩

/-- C5, witness: with every adapter method failing, none of the three
mutations changes the store. -/
theorem mutationRemoteFirst_witness :
    (createRecord sampleDb "u1" "d1" ⟨"A", "www", "1.2.3.4", none, none⟩
      envAllError "id0" 7).2 = sampleDb :=
  ((mutationRemoteFirst sampleDb "u1" "d1" "r1" ⟨"A", "www", "1.2.3.4", none, none⟩
      ⟨none, none, none, none, none⟩ envAllError "id0" 7).1 "boom" rfl).2

/-- C6 (amended): `createRecord` always validates first: an input failing
the §4.1 validator yields exactly the validation error with no store
change, for every adapter environment (hence no remote call can have
influenced the outcome). `updateRecord` behaves the same, but only when
`type`, `name` and `content` are all provided and non-empty; partial
inputs skip validation entirely. -/
theorem validateBeforeRemote_amended (db : Db) (userId domainId recordId : String)
    (cin : CreateRecordInput) (uin : UpdateRecordInput) (env : AdapterEnv)
    (newId : String) (now : Nat) :
    ((validateDNSRecord
        { type := cin.type, name := cin.name, content := cin.content,
          ttl := cin.ttl, priority := cin.priority }).valid = false →
      createRecord db userId domainId cin env newId now =
        ({ success := false,
           error := (validateDNSRecord
             { type := cin.type, name := cin.name, content := cin.content,
               ttl := cin.ttl, priority := cin.priority }).error,
           record := none }, db)) ∧
    (strTruthy uin.type = true → strTruthy uin.name = true → strTruthy uin.content = true →
      (validateDNSRecord
        { type := uin.type.getD "", name := uin.name.getD "",
          content := uin.content.getD "", ttl := uin.ttl,
          priority := uin.priority }).valid = false →
      updateRecord db userId domainId recordId uin env now =
        ({ success := false,
           error := (validateDNSRecord
             { type := uin.type.getD "", name := uin.name.getD "",
               content := uin.content.getD "", ttl := uin.ttl,
               priority := uin.priority }).error,
           record := none }, db)) := by
  constructor
  · intro hv
    unfold createRecord
    rw [if_pos (by simp [hv])]
  · intro ht hn hc hv
    unfold updateRecord
    rw [if_pos (by simp [ht, hn, hc, hv])]
    rw [if_pos (by simp [ht, hn, hc])]

/-- Concrete instantiation of `validateBeforeRemote_amended`: an input
with empty content (rejected by the validator) is turned away by both
mutations with no store change. -/
theorem validateBeforeRemote_amended_witness :
    createRecord sampleDb "u1" "d1" ⟨"A", "www", "", none, none⟩ envOkSample "id0" 7 =
      ({ success := false,
         error := (validateDNSRecord
           { type := "A", name := "www", content := "",
             ttl := none, priority := none }).error,
         record := none }, sampleDb) ∧
    updateRecord sampleDb "u1" "d1" "r1"
        ⟨some "A", some "www", some "notanip", none, some 5⟩ envOkSample 7 =
      ({ success := false,
         error := (validateDNSRecord
           { type := "A", name := "www", content := "notanip",
             ttl := none, priority := some 5 }).error,
         record := none }, sampleDb) :=
  ⟨(validateBeforeRemote_amended sampleDb "u1" "d1" "r1"
      ⟨"A", "www", "", none, none⟩ ⟨some "A", some "www", some "notanip", none, some 5⟩
      envOkSample "id0" 7).1 (by decide),
   (validateBeforeRemote_amended sampleDb "u1" "d1" "r1"
      ⟨"A", "www", "", none, none⟩ ⟨some "A", some "www", some "notanip", none, some 5⟩
      envOkSample "id0" 7).2 (by decide) (by decide) (by decide) (by decide)⟩

/-- C6, counterexample: an `updateRecord` input whose record fields fail
the §4.1 validator (empty content is rejected by `validateRecordContent`)
is nevertheless sent to the adapter, succeeds, and mutates local storage
-- the claim that every §4.1-invalid input is rejected before any remote
call is false for `updateRecord`. -/
theorem validateBeforeRemote_counterexample :
    (validateDNSRecord
      { type := "A", name := "www", content := "",
        ttl := none, priority := none }).valid = false ∧
    (updateRecord sampleDb "u1" "d1" "r1"
      ⟨some "A", some "www", some "", none, none⟩ envOkSample 7).1.success = true ∧
    (updateRecord sampleDb "u1" "d1" "r1"
      ⟨some "A", some "www", some "", none, none⟩ envOkSample 7).2 ≠ sampleDb := by
  refine ⟨by decide, by decide, by decide⟩

/-- C4: when `listDomains` fails, `syncProvider` reports failure, flips
the provider's status to `error`, and neither deletes nor modifies any
Domain row; when it succeeds, the provider is stamped `active` with
`lastSyncAt = now`. -/
theorem providerSyncFailureIsolation (db : Db) (userId providerId : String)
    (env : AdapterEnv) (idg : Nat → String) (now : Nat) (prov : ProviderRow)
    (hfound : findProviderRow db providerId userId = some prov)
    (hdec : env.decryptOk = true) (hcre : env.createOk = true) :
    (∀ e, env.listDomains = .error e →
      (syncProvider db userId providerId env idg now).1.success = false ∧
      (syncProvider db userId providerId env idg now).1.error = some e ∧
      (syncProvider db userId providerId env idg now).2.domains = db.domains ∧
      (syncProvider db userId providerId env idg now).2.records = db.records ∧
      ∀ p ∈ (syncProvider db userId providerId env idg now).2.providers,
        p.id = providerId → p.status = "error") ∧
    (∀ L, env.listDomains = .ok L →
      (syncProvider db userId providerId env idg now).1.success = true ∧
      ∀ p ∈ (syncProvider db userId providerId env idg now).2.providers,
        p.id = providerId → p.status = "active" ∧ p.lastSyncAt = some now) := by
  constructor
  · intro e hld
    have hstep : syncProvider db userId providerId env idg now =
        ({ success := false, error := some e, count := none },
         setProviderError db providerId now) := by
      unfold syncProvider
      rw [hfound, adapterAttempt_reduce env env.listDomains hdec hcre, hld]
    rw [hstep]
    refine ⟨rfl, rfl, rfl, rfl, ?_⟩
    intro p hp hpid
    simp only [setProviderError, List.mem_map] at hp
    obtain ⟨q, hq, hfq⟩ := hp
    by_cases hqid : (q.id == providerId) = true
    · rw [if_pos hqid] at hfq
      rw [← hfq]
    · rw [if_neg hqid] at hfq
      exact absurd (show q.id = providerId from by rw [hfq]; exact hpid)
        (by simpa using hqid)
  · intro L hld
    have hstep : syncProvider db userId providerId env idg now =
        ({ success := true, error := none, count := some L.length },
         setProviderSynced
           { db with domains := syncDomainsLoop providerId now idg db.domains L 0 }
           providerId now) := by
      unfold syncProvider
      rw [hfound, adapterAttempt_reduce env env.listDomains hdec hcre, hld]
    rw [hstep]
    refine ⟨rfl, ?_⟩
    intro p hp hpid
    simp only [setProviderSynced, List.mem_map] at hp
    obtain ⟨q, hq, hfq⟩ := hp
    by_cases hqid : (q.id == providerId) = true
    · rw [if_pos hqid] at hfq
      rw [← hfq]
      exact ⟨rfl, rfl⟩
    · rw [if_neg hqid] at hfq
      exact absurd (show q.id = providerId from by rw [hfq]; exact hpid)
        (by simpa using hqid)

/-- C4, witness: a failing `listDomains` against the sample store leaves
the Domain table unchanged. -/
theorem providerSyncFailureIsolation_witness :
    (syncProvider sampleDb "u1" "p1" envAllError (fun _ => "n0") 7).2.domains =
      sampleDb.domains :=
  (((providerSyncFailureIsolation sampleDb "u1" "p1" envAllError (fun _ => "n0") 7
      sampleProvider (by decide) rfl rfl).1 "boom" rfl).2.2.1)

theorem newRecordRows_view (domainId : String) (now : Nat) (idg : Nat → String) :
    ∀ (L : List RemoteRecord) (n : Nat),
      (newRecordRows domainId now idg L n).map localRecordView = L.map remoteRecordView
  | [], _ => rfl
  | r :: rs, n => by
    simp only [newRecordRows, List.map_cons]
    rw [newRecordRows_view domainId now idg rs (n + 1)]
    rfl

theorem newRecordRows_domainId (domainId : String) (now : Nat) (idg : Nat → String) :
    ∀ (L : List RemoteRecord) (n : Nat) (r : RecordRow),
      r ∈ newRecordRows domainId now idg L n → r.domainId = domainId
  | [], _, r, hr => by simp [newRecordRows] at hr
  | x :: rs, n, r, hr => by
    simp only [newRecordRows, List.mem_cons] at hr
    rcases hr with hr | hr
    · rw [hr]
    · exact newRecordRows_domainId domainId now idg rs (n + 1) r hr

/-- C3: after a successful `syncDomainRecords`, the local Record rows of
the domain are, in order, exactly the adapter's `listRecords` result with
remoteId/type/name/content/ttl/priority/proxied mirrored — whatever
Record rows existed for the domain before the call. -/
theorem recordSyncReplace (db : Db) (userId domainId : String) (env : AdapterEnv)
    (idg : Nat → String) (now : Nat) (dj : DomainRow × ProviderRow)
    (L : List RemoteRecord)
    (hjoin : findDomainJoin db domainId userId = some dj)
    (hdec : env.decryptOk = true) (hcre : env.createOk = true)
    (hlr : env.listRecords = .ok L) :
    (syncDomainRecords db userId domainId env idg now).1.success = true ∧
    ((syncDomainRecords db userId domainId env idg now).2.records.filter
        (fun r => r.domainId == domainId)).map localRecordView =
      L.map remoteRecordView := by
  have hstep : syncDomainRecords db userId domainId env idg now =
      ({ success := true, error := none, count := some L.length },
       { db with
          records := db.records.filter (fun r => !(r.domainId == domainId)) ++
            newRecordRows domainId now idg L 0,
          domains := db.domains.map (fun d =>
            if d.id == domainId then { d with syncedAt := some now, updatedAt := some now }
            else d) }) := by
    unfold syncDomainRecords
    rw [hjoin, adapterAttempt_reduce env env.listRecords hdec hcre, hlr]
  rw [hstep]
  refine ⟨rfl, ?_⟩
  rw [List.filter_append]
  rw [show (db.records.filter (fun r => !(r.domainId == domainId))).filter
      (fun r => r.domainId == domainId) = [] from List.filter_eq_nil.mpr ?_]
  · rw [List.nil_append,
      List.filter_eq_self.mpr (fun r hr => by
        have := newRecordRows_domainId domainId now idg L 0 r hr
        simp [this])]
    exact newRecordRows_view domainId now idg L 0
  · intro r hr
    have := List.of_mem_filter hr
    simpa using this

/-- C3, witness: syncing the sample domain replaces its prior record with
the freshly listed remote record. -/
theorem recordSyncReplace_witness :
    ((syncDomainRecords sampleDb "u1" "d1" envOkSample (fun n => "n0") 7).2.records.filter
        (fun r => r.domainId == "d1")).map localRecordView =
      [sampleRemoteRecord].map remoteRecordView :=
  (recordSyncReplace sampleDb "u1" "d1" envOkSample (fun n => "n0") 7
    (sampleDomain, sampleProvider) [sampleRemoteRecord] (by decide) rfl rfl rfl).2

/-! ### Sync engine idempotence: C7 -/

theorem find?_map_pred {α : Type} (f : α → α) (p : α → Bool)
    (hp : ∀ a, p (f a) = p a) : ∀ l : List α, (l.map f).find? p = (l.find? p).map f
  | [] => rfl
  | a :: l => by
    by_cases ha : p a = true
    · rw [List.map_cons, List.find?_cons_of_pos _ (by rw [hp a]; exact ha),
        List.find?_cons_of_pos _ ha]
      rfl
    · rw [List.map_cons, List.find?_cons_of_neg _ (by rw [hp a]; exact ha),
        List.find?_cons_of_neg _ ha]
      exact find?_map_pred f p hp l

theorem find?_append_of_none {α : Type} (p : α → Bool) (l₂ : List α) :
    ∀ l₁ : List α, l₁.find? p = none → (l₁ ++ l₂).find? p = l₂.find? p
  | [], _ => rfl
  | a :: l₁, h => by
    by_cases ha : p a = true
    · rw [List.find?_cons_of_pos _ ha] at h
      cases h
    · rw [List.find?_cons_of_neg _ ha] at h
      rw [List.cons_append, List.find?_cons_of_neg _ ha]
      exact find?_append_of_none p l₂ l₁ h

theorem find?_append_of_some {α : Type} (p : α → Bool) (l₂ : List α) (a : α) :
    ∀ l₁ : List α, l₁.find? p = some a → (l₁ ++ l₂).find? p = some a
  | [], h => by cases h
  | b :: l₁, h => by
    by_cases hb : p b = true
    · rw [List.find?_cons_of_pos _ hb] at h
      rw [List.cons_append, List.find?_cons_of_pos _ hb]
      exact h
    · rw [List.find?_cons_of_neg _ hb] at h
      rw [List.cons_append, List.find?_cons_of_neg _ hb]
      exact find?_append_of_some p l₂ a l₁ h

/-- The in-place update of the found-case of `upsertDomain`. -/
theorem upsertDomain_eq_found (providerId : String) (now : Nat) (ds : List DomainRow)
    (rd : RemoteDomain) (fid : String) (ex : DomainRow)
    (h : ds.find? (fun d => d.providerId == providerId && d.remoteId == rd.id) = some ex) :
    upsertDomain providerId now ds rd fid =
      ds.map (fun d => if d.id == ex.id then
        { d with name := rd.name, status := rd.status,
                 syncedAt := some now, updatedAt := some now } else d) := by
  unfold upsertDomain
  rw [h]

theorem upsertDomain_eq_notfound (providerId : String) (now : Nat) (ds : List DomainRow)
    (rd : RemoteDomain) (fid : String)
    (h : ds.find? (fun d => d.providerId == providerId && d.remoteId == rd.id) = none) :
    upsertDomain providerId now ds rd fid =
      ds ++ [{ id := fid, providerId := providerId, name := rd.name, remoteId := rd.id,
               status := rd.status, syncedAt := some now, updatedAt := some now }] := by
  unfold upsertDomain
  rw [h]

/-- The found-case update function used below preserves every field that
identifies a row or its pair. -/
theorem updFn_preserves (rd : RemoteDomain) (now : Nat) (exid : String) (d : DomainRow) :
    (if d.id == exid then
      ({ d with name := rd.name, status := rd.status,
                syncedAt := some now, updatedAt := some now } : DomainRow) else d).id = d.id ∧
    (if d.id == exid then
      ({ d with name := rd.name, status := rd.status,
                syncedAt := some now, updatedAt := some now } : DomainRow) else d).providerId
      = d.providerId ∧
    (if d.id == exid then
      ({ d with name := rd.name, status := rd.status,
                syncedAt := some now, updatedAt := some now } : DomainRow) else d).remoteId
      = d.remoteId := by
  by_cases hc : (d.id == exid) = true
  · rw [if_pos hc]
    exact ⟨rfl, rfl, rfl⟩
  · rw [if_neg hc]
    exact ⟨rfl, rfl, rfl⟩

theorem upsertDomain_ids (providerId : String) (now : Nat) (ds : List DomainRow)
    (rd : RemoteDomain) (fid : String) :
    (upsertDomain providerId now ds rd fid).map DomainRow.id = ds.map DomainRow.id ∨
    ((upsertDomain providerId now ds rd fid).map DomainRow.id =
      ds.map DomainRow.id ++ [fid] ∧
     ds.find? (fun d => d.providerId == providerId && d.remoteId == rd.id) = none) := by
  cases h : ds.find? (fun d => d.providerId == providerId && d.remoteId == rd.id) with
  | some ex =>
    left
    rw [upsertDomain_eq_found providerId now ds rd fid ex h, List.map_map]
    exact List.map_congr_left (fun d _ => (updFn_preserves rd now ex.id d).1)
  | none =>
    right
    rw [upsertDomain_eq_notfound providerId now ds rd fid h, List.map_append]
    exact ⟨rfl, rfl⟩

theorem upsertDomain_keys (providerId : String) (now : Nat) (ds : List DomainRow)
    (rd : RemoteDomain) (fid : String) :
    (upsertDomain providerId now ds rd fid).map (fun d => (d.providerId, d.remoteId)) =
      ds.map (fun d => (d.providerId, d.remoteId)) ∨
    ((upsertDomain providerId now ds rd fid).map (fun d => (d.providerId, d.remoteId)) =
      ds.map (fun d => (d.providerId, d.remoteId)) ++ [(providerId, rd.id)] ∧
     ds.find? (fun d => d.providerId == providerId && d.remoteId == rd.id) = none) := by
  cases h : ds.find? (fun d => d.providerId == providerId && d.remoteId == rd.id) with
  | some ex =>
    left
    rw [upsertDomain_eq_found providerId now ds rd fid ex h, List.map_map]
    refine List.map_congr_left (fun d _ => ?_)
    have hp := updFn_preserves rd now ex.id d
    simp only [Function.comp]
    rw [hp.2.1, hp.2.2]
  | none =>
    right
    rw [upsertDomain_eq_notfound providerId now ds rd fid h, List.map_append]
    exact ⟨rfl, rfl⟩

/-- The predicate matched by the `upsertDomain` lookup is a function of
`providerId` and `remoteId` only, which the found-case update keeps. -/
theorem updFn_pred_invariant (providerId : String) (rid : String) (rd : RemoteDomain)
    (now : Nat) (exid : String) (d : DomainRow) :
    ((fun x : DomainRow => x.providerId == providerId && x.remoteId == rid)
      (if d.id == exid then
        { d with name := rd.name, status := rd.status,
                 syncedAt := some now, updatedAt := some now } else d)) =
    ((fun x : DomainRow => x.providerId == providerId && x.remoteId == rid) d) := by
  have hp := updFn_preserves rd now exid d
  simp only
  rw [hp.2.1, hp.2.2]

/-- An upsert for a remote domain establishes `SyncedFor` that domain. -/
theorem upsertDomain_synced (providerId : String) (now : Nat) (ds : List DomainRow)
    (rd : RemoteDomain) (fid : String) :
    SyncedFor providerId now (upsertDomain providerId now ds rd fid) rd := by
  cases h : ds.find? (fun d => d.providerId == providerId && d.remoteId == rd.id) with
  | some ex =>
    rw [upsertDomain_eq_found providerId now ds rd fid ex h]
    refine ⟨{ ex with
                name := rd.name, status := rd.status,
                syncedAt := some now, updatedAt := some now }, ?_, rfl, rfl, rfl, rfl⟩
    rw [find?_map_pred _ _ (fun d => updFn_pred_invariant providerId rd.id rd now ex.id d) ds, h]
    simp only [Option.map_some']
    rw [if_pos (by simp)]
  | none =>
    rw [upsertDomain_eq_notfound providerId now ds rd fid h]
    refine ⟨{ id := fid, providerId := providerId, name := rd.name,
                remoteId := rd.id, status := rd.status, syncedAt := some now,
                updatedAt := some now },
            ?_, rfl, rfl, rfl, rfl⟩
    rw [find?_append_of_none _ _ ds h]
    exact List.find?_cons_of_pos _ (by simp)

/-- An upsert for a remote domain with a different remote id preserves
`SyncedFor`, provided local ids are unique. -/
theorem upsertDomain_preserves_synced (providerId : String) (now : Nat)
    (ds : List DomainRow) (rd rd' : RemoteDomain) (fid : String)
    (hids : (ds.map DomainRow.id).Nodup) (hne : rd'.id ≠ rd.id)
    (hs : SyncedFor providerId now ds rd) :
    SyncedFor providerId now (upsertDomain providerId now ds rd' fid) rd := by
  obtain ⟨d, hfind, hname, hstatus, hsync, hupd⟩ := hs
  cases h : ds.find? (fun x => x.providerId == providerId && x.remoteId == rd'.id) with
  | none =>
    rw [upsertDomain_eq_notfound providerId now ds rd' fid h]
    exact ⟨d, find?_append_of_some _ _ d ds hfind, hname, hstatus, hsync, hupd⟩
  | some ex =>
    rw [upsertDomain_eq_found providerId now ds rd' fid ex h]
    have hdex : d.id ≠ ex.id := by
      intro heq
      have hdmem := List.mem_of_find?_eq_some hfind
      have hexmem := List.mem_of_find?_eq_some h
      have hde : d = ex := List.inj_on_of_nodup_map hids hdmem hexmem heq
      have h1 := List.find?_some hfind
      have h2 := List.find?_some h
      simp only [Bool.and_eq_true, beq_iff_eq] at h1 h2
      exact hne (by rw [← h2.2, ← hde, h1.2])
    refine ⟨d, ?_, hname, hstatus, hsync, hupd⟩
    rw [find?_map_pred _ _ (fun x => updFn_pred_invariant providerId rd.id rd' now ex.id x) ds,
      hfind]
    simp only [Option.map_some']
    rw [if_neg (by simpa using hdex)]

/-- When a remote domain is already `SyncedFor`, its upsert is the
identity, provided local ids are unique. -/
theorem upsertDomain_absorb (providerId : String) (now : Nat) (ds : List DomainRow)
    (rd : RemoteDomain) (fid : String)
    (hids : (ds.map DomainRow.id).Nodup)
    (hs : SyncedFor providerId now ds rd) :
    upsertDomain providerId now ds rd fid = ds := by
  obtain ⟨d, hfind, hname, hstatus, hsync, hupd⟩ := hs
  rw [upsertDomain_eq_found providerId now ds rd fid d hfind]
  have hdmem := List.mem_of_find?_eq_some hfind
  refine (List.map_congr_left (fun x hx => ?_)).trans (List.map_id ds)
  by_cases hc : (x.id == d.id) = true
  · have hxd : x = d := List.inj_on_of_nodup_map hids hx hdmem (by simpa using hc)
    rw [if_pos hc, hxd]
    cases d
    dsimp only at hname hstatus hsync hupd
    dsimp only
    rw [hname, hstatus, hsync, hupd]
    rfl
  · rw [if_neg hc]
    rfl

/-- One upsert step keeps local ids unique and keeps every still-unused
generated id fresh. -/
theorem upsert_invariant_step (providerId : String) (now : Nat) (idg : Nat → String)
    (hinj : ∀ m k : Nat, idg m = idg k → m = k)
    (ds : List DomainRow) (n : Nat) (rd : RemoteDomain)
    (h1 : (ds.map DomainRow.id).Nodup)
    (h2 : ∀ m, n ≤ m → idg m ∉ ds.map DomainRow.id) :
    ((upsertDomain providerId now ds rd (idg n)).map DomainRow.id).Nodup ∧
    (∀ m, n + 1 ≤ m →
      idg m ∉ (upsertDomain providerId now ds rd (idg n)).map DomainRow.id) := by
  rcases upsertDomain_ids providerId now ds rd (idg n) with h | ⟨h, -⟩
  · rw [h]
    exact ⟨h1, fun m hm => h2 m (by omega)⟩
  · rw [h]
    constructor
    · rw [List.nodup_append]
      refine ⟨h1, List.nodup_singleton _, ?_⟩
      intro a ha hax
      rw [List.mem_singleton] at hax
      exact h2 n (le_refl n) (hax ▸ ha)
    · intro m hm hmem
      rw [List.mem_append, List.mem_singleton] at hmem
      rcases hmem with hmem | hmem
      · exact h2 m (by omega) hmem
      · have := hinj m n hmem
        omega

/-- `SyncedFor` survives the rest of the loop when the remaining remote
domains carry different remote ids. -/
theorem syncDomainsLoop_preserves_synced (providerId : String) (now : Nat)
    (idg : Nat → String) (hinj : ∀ m k : Nat, idg m = idg k → m = k)
    (rd : RemoteDomain) :
    ∀ (L : List RemoteDomain) (ds : List DomainRow) (n : Nat),
      (ds.map DomainRow.id).Nodup →
      (∀ m, n ≤ m → idg m ∉ ds.map DomainRow.id) →
      (∀ rd' ∈ L, rd'.id ≠ rd.id) →
      SyncedFor providerId now ds rd →
      SyncedFor providerId now (syncDomainsLoop providerId now idg ds L n) rd
  | [], ds, n, _, _, _, hs => hs
  | rd' :: L', ds, n, h1, h2, hne, hs => by
    have hstep := upsert_invariant_step providerId now idg hinj ds n rd' h1 h2
    exact syncDomainsLoop_preserves_synced providerId now idg hinj rd L'
      (upsertDomain providerId now ds rd' (idg n)) (n + 1) hstep.1 hstep.2
      (fun x hx => hne x (List.mem_cons_of_mem rd' hx))
      (upsertDomain_preserves_synced providerId now ds rd rd' (idg n) h1
        (hne rd' (List.mem_cons_self rd' L')) hs)

/-- After the loop, every listed remote domain is `SyncedFor`. -/
theorem syncDomainsLoop_synced (providerId : String) (now : Nat)
    (idg : Nat → String) (hinj : ∀ m k : Nat, idg m = idg k → m = k) :
    ∀ (L : List RemoteDomain) (ds : List DomainRow) (n : Nat),
      (ds.map DomainRow.id).Nodup →
      (∀ m, n ≤ m → idg m ∉ ds.map DomainRow.id) →
      (L.map RemoteDomain.id).Nodup →
      ∀ rd ∈ L, SyncedFor providerId now (syncDomainsLoop providerId now idg ds L n) rd
  | [], _, _, _, _, _, rd, hrd => absurd hrd (List.not_mem_nil rd)
  | rd0 :: L', ds, n, h1, h2, hLn, rd, hrd => by
    have hstep := upsert_invariant_step providerId now idg hinj ds n rd0 h1 h2
    have hL'n : (L'.map RemoteDomain.id).Nodup := (List.nodup_cons.mp hLn).2
    rcases List.mem_cons.mp hrd with hrd | hrd
    · subst hrd
      refine syncDomainsLoop_preserves_synced providerId now idg hinj rd L'
        (upsertDomain providerId now ds rd (idg n)) (n + 1) hstep.1 hstep.2 ?_
        (upsertDomain_synced providerId now ds rd (idg n))
      intro rd' hrd' heq
      exact (List.nodup_cons.mp hLn).1 (heq ▸ List.mem_map_of_mem RemoteDomain.id hrd')
    · exact syncDomainsLoop_synced providerId now idg hinj L'
        (upsertDomain providerId now ds rd0 (idg n)) (n + 1) hstep.1 hstep.2 hL'n rd hrd

/-- A second pass over an already-synced state is the identity. -/
theorem syncDomainsLoop_absorb (providerId : String) (now : Nat) (idg2 : Nat → String) :
    ∀ (L : List RemoteDomain) (ds : List DomainRow) (n : Nat),
      (ds.map DomainRow.id).Nodup →
      (∀ rd ∈ L, SyncedFor providerId now ds rd) →
      syncDomainsLoop providerId now idg2 ds L n = ds
  | [], ds, n, _, _ => rfl
  | rd0 :: L', ds, n, h1, hall => by
    have habs := upsertDomain_absorb providerId now ds rd0 (idg2 n) h1
      (hall rd0 (List.mem_cons_self rd0 L'))
    show syncDomainsLoop providerId now idg2 (upsertDomain providerId now ds rd0 (idg2 n)) L' (n + 1) = ds
    rw [habs]
    exact syncDomainsLoop_absorb providerId now idg2 L' ds (n + 1) h1
      (fun rd hrd => hall rd (List.mem_cons_of_mem rd0 hrd))

/-- The loop preserves the `(providerId, remoteId)` uniqueness invariant. -/
theorem syncDomainsLoop_pairNodup (providerId : String) (now : Nat) (idg : Nat → String) :
    ∀ (L : List RemoteDomain) (ds : List DomainRow) (n : Nat),
      pairNodup ds → pairNodup (syncDomainsLoop providerId now idg ds L n)
  | [], _, _, h => h
  | rd0 :: L', ds, n, h => by
    refine syncDomainsLoop_pairNodup providerId now idg L'
      (upsertDomain providerId now ds rd0 (idg n)) (n + 1) ?_
    rcases upsertDomain_keys providerId now ds rd0 (idg n) with hk | ⟨hk, hnone⟩
    · unfold pairNodup
      rw [hk]
      exact h
    · unfold pairNodup
      rw [hk, List.nodup_append]
      refine ⟨h, List.nodup_singleton _, ?_⟩
      intro a ha hax
      rw [List.mem_singleton] at hax
      rw [List.mem_map] at ha
      obtain ⟨d, hd, hda⟩ := ha
      have := List.find?_eq_none.mp hnone d hd
      rw [hax] at hda
      have hpid : d.providerId = providerId := congrArg Prod.fst hda
      have hrid : d.remoteId = rd0.id := congrArg Prod.snd hda
      exact this (by simp [hpid, hrid])

/-- The success-path update of the provider row preserves the fields the
provider lookup inspects. -/
theorem findProviderRow_setProviderSynced (db : Db) (providerId userId : String)
    (now : Nat) :
    findProviderRow (setProviderSynced db providerId now) providerId userId =
      (findProviderRow db providerId userId).map (fun p =>
        if p.id == providerId then
          { p with status := "active", lastSyncAt := some now, updatedAt := some now }
        else p) := by
  unfold findProviderRow setProviderSynced
  exact find?_map_pred _ _ (fun p => by
    by_cases hc : (p.id == providerId) = true
    · rw [if_pos hc]
    · rw [if_neg hc]) db.providers

/-- The unfolding of a successful `syncProvider` run. -/
theorem syncProvider_ok (db : Db) (userId providerId : String) (env : AdapterEnv)
    (idg : Nat → String) (now : Nat) (prov : ProviderRow) (L : List RemoteDomain)
    (hfound : findProviderRow db providerId userId = some prov)
    (hdec : env.decryptOk = true) (hcre : env.createOk = true)
    (hld : env.listDomains = .ok L) :
    syncProvider db userId providerId env idg now =
      ({ success := true, error := none, count := some L.length },
       setProviderSynced
         { db with domains := syncDomainsLoop providerId now idg db.domains L 0 }
         providerId now) := by
  unfold syncProvider
  rw [hfound, adapterAttempt_reduce env env.listDomains hdec hcre, hld]

/-- The loop keeps local primary keys unique. -/
theorem syncDomainsLoop_ids_nodup (providerId : String) (now : Nat)
    (idg : Nat → String) (hinj : ∀ m k : Nat, idg m = idg k → m = k) :
    ∀ (L : List RemoteDomain) (ds : List DomainRow) (n : Nat),
      (ds.map DomainRow.id).Nodup →
      (∀ m, n ≤ m → idg m ∉ ds.map DomainRow.id) →
      ((syncDomainsLoop providerId now idg ds L n).map DomainRow.id).Nodup
  | [], _, _, h1, _ => h1
  | rd0 :: L', ds, n, h1, h2 => by
    have hstep := upsert_invariant_step providerId now idg hinj ds n rd0 h1 h2
    exact syncDomainsLoop_ids_nodup providerId now idg hinj L'
      (upsertDomain providerId now ds rd0 (idg n)) (n + 1) hstep.1 hstep.2

/-- C7: against an unchanged remote domain list, a second `syncProvider`
run leaves the Domain table exactly as the first run left it (rows are
updated in place, never duplicated), and the `(providerId, remoteId)`
uniqueness invariant is preserved. Hypotheses: the remote list has unique
ids, local primary keys are unique, and the id generator yields fresh,
pairwise-distinct ids. -/
theorem providerSyncIdempotent (db : Db) (userId providerId : String)
    (env : AdapterEnv) (idg idg2 : Nat → String) (now : Nat)
    (prov : ProviderRow) (L : List RemoteDomain)
    (hfound : findProviderRow db providerId userId = some prov)
    (hdec : env.decryptOk = true) (hcre : env.createOk = true)
    (hld : env.listDomains = .ok L)
    (hLn : (L.map RemoteDomain.id).Nodup)
    (hidn : (db.domains.map DomainRow.id).Nodup)
    (hfresh : ∀ n, idg n ∉ db.domains.map DomainRow.id)
    (hinj : ∀ m k : Nat, idg m = idg k → m = k)
    (hpn : pairNodup db.domains) :
    (syncProvider (syncProvider db userId providerId env idg now).2
        userId providerId env idg2 now).2.domains =
      (syncProvider db userId providerId env idg now).2.domains ∧
    pairNodup (syncProvider db userId providerId env idg now).2.domains := by
  have hfresh0 : ∀ m, 0 ≤ m → idg m ∉ db.domains.map DomainRow.id :=
    fun m _ => hfresh m
  have hstep1 := syncProvider_ok db userId providerId env idg now prov L
    hfound hdec hcre hld
  have hsynced := syncDomainsLoop_synced providerId now idg hinj L db.domains 0
    hidn hfresh0 hLn
  have hids1 := syncDomainsLoop_ids_nodup providerId now idg hinj L db.domains 0
    hidn hfresh0
  have hfound2 : findProviderRow (setProviderSynced { db with domains := syncDomainsLoop providerId now idg db.domains L 0 } providerId now) providerId userId =
      some (if prov.id == providerId then
        { prov with status := "active", lastSyncAt := some now, updatedAt := some now }
      else prov) := by
    rw [findProviderRow_setProviderSynced]
    rw [show findProviderRow { db with domains := syncDomainsLoop providerId now idg db.domains L 0 } providerId userId =
          findProviderRow db providerId userId from rfl, hfound]
    rfl
  have hstep2 := syncProvider_ok (setProviderSynced { db with domains := syncDomainsLoop providerId now idg db.domains L 0 } providerId now) userId providerId env idg2 now _ L
    hfound2 hdec hcre hld
  have habs : syncDomainsLoop providerId now idg2 (syncDomainsLoop providerId now idg db.domains L 0) L 0 = syncDomainsLoop providerId now idg db.domains L 0 :=
    syncDomainsLoop_absorb providerId now idg2 L (syncDomainsLoop providerId now idg db.domains L 0) 0 hids1
      (fun rd hrd => hsynced rd hrd)
  rw [hstep1, hstep2]
  exact ⟨habs, syncDomainsLoop_pairNodup providerId now idg L db.domains 0 hpn⟩

/-- Concrete instantiation of `providerSyncIdempotent` on the sample
database with a fresh injective id generator. -/
theorem providerSyncIdempotent_witness :
    (syncProvider (syncProvider sampleDb "u1" "p1" envOkSample
          (fun n => String.mk (List.replicate n 'a')) 1000).2
        "u1" "p1" envOkSample (fun _ => "z") 1000).2.domains =
      (syncProvider sampleDb "u1" "p1" envOkSample
          (fun n => String.mk (List.replicate n 'a')) 1000).2.domains ∧
    pairNodup (syncProvider sampleDb "u1" "p1" envOkSample
        (fun n => String.mk (List.replicate n 'a')) 1000).2.domains :=
  providerSyncIdempotent sampleDb "u1" "p1" envOkSample
    (fun n => String.mk (List.replicate n 'a')) (fun _ => "z") 1000
    sampleProvider [sampleRemoteDomain]
    (by decide) rfl rfl rfl
    (by decide)
    (by simp [sampleDb, sampleDomain])
    (fun n hmem => by
      have heq : String.mk (List.replicate n 'a') = "d1" := by
        simpa [sampleDb, sampleDomain] using hmem
      have hdata : List.replicate n 'a' = ['d', '1'] := congrArg String.data heq
      have hd : 'd' ∈ List.replicate n 'a' := by rw [hdata]; decide
      exact absurd (List.eq_of_mem_replicate hd) (by decide))
    (fun m k h => by
      have hd : List.replicate m 'a' = List.replicate k 'a' := congrArg String.data h
      have := congrArg List.length hd
      simpa using this)
    (by simp [pairNodup, sampleDb, sampleDomain])

/-! ## Byte-level lemmas for the vault round-trip -/

/-- The base64 alphabet maps are mutually inverse on sextets. -/
theorem b64Val_b64Char : ∀ n, n < 64 → b64Val (b64Char n) = some n := by decide

theorem b64Val_pad : b64Val '=' = none := by decide

/-- Decoding inverts encoding on byte lists. -/
theorem base64DecodeVals_encode : ∀ l : List Nat, (∀ x ∈ l, x < 256) →
    base64DecodeVals ((base64EncodeList l).filterMap b64Val) = l
  | [], _ => rfl
  | [a], h => by
    have ha : a < 256 := h a (by simp)
    have h1 := b64Val_b64Char (a / 4) (by omega)
    have h2 := b64Val_b64Char (a % 4 * 16) (by omega)
    simp only [base64EncodeList, List.filterMap_cons, h1, h2, b64Val_pad,
      List.filterMap_nil, base64DecodeVals, List.cons.injEq, and_true]
    omega
  | [a, b], h => by
    have ha : a < 256 := h a (by simp)
    have hb : b < 256 := h b (by simp)
    have h1 := b64Val_b64Char (a / 4) (by omega)
    have h2 := b64Val_b64Char (a % 4 * 16 + b / 16) (by omega)
    have h3 := b64Val_b64Char (b % 16 * 4) (by omega)
    simp only [base64EncodeList, List.filterMap_cons, h1, h2, h3, b64Val_pad,
      List.filterMap_nil, base64DecodeVals, List.cons.injEq, and_true]
    constructor <;> omega
  | a :: b :: c :: rest, h => by
    have ha : a < 256 := h a (by simp)
    have hb : b < 256 := h b (by simp)
    have hc : c < 256 := h c (by simp)
    have h1 := b64Val_b64Char (a / 4) (by omega)
    have h2 := b64Val_b64Char (a % 4 * 16 + b / 16) (by omega)
    have h3 := b64Val_b64Char (b % 16 * 4 + c / 64) (by omega)
    have h4 := b64Val_b64Char (c % 64) (by omega)
    have IH := base64DecodeVals_encode rest (fun x hx => h x (by simp [hx]))
    simp only [base64EncodeList, List.filterMap_cons, h1, h2, h3, h4,
      base64DecodeVals, IH, List.cons.injEq, and_true]
    refine ⟨by omega, by omega, by omega⟩

/-- `Buffer.from(Buffer.from(l).toString("base64"), "base64")` is `l`. -/
theorem base64_roundtrip (l : List Nat) (h : ∀ x ∈ l, x < 256) :
    base64Decode (base64Encode l) = l :=
  base64DecodeVals_encode l h

theorem prfByte_lt (seed i : Nat) : prfByte seed i < 256 := by
  simp only [prfByte]; omega

theorem keystream_length (key iv : List Nat) (n : Nat) :
    (keystream key iv n).length = n := by simp [keystream]

theorem keystream_lt (key iv : List Nat) (n : Nat) :
    ∀ x ∈ keystream key iv n, x < 256 := by
  intro x hx
  simp only [keystream, List.mem_map] at hx
  obtain ⟨i, _, rfl⟩ := hx
  exact prfByte_lt _ _

theorem gcmTag_length (key iv ct : List Nat) : (gcmTag key iv ct).length = 16 := by
  simp [gcmTag]

theorem gcmTag_lt (key iv ct : List Nat) : ∀ x ∈ gcmTag key iv ct, x < 256 := by
  intro x hx
  simp only [gcmTag, List.mem_map] at hx
  obtain ⟨i, _, rfl⟩ := hx
  exact prfByte_lt _ _

/-- Every `Char` scalar value is below `0x110000`. -/
theorem char_toNat_lt (c : Char) : c.toNat < 0x110000 := by
  have h : c.toNat < 0xd800 ∨ (0xe000 ≤ c.toNat ∧ c.toNat < 0x110000) := c.valid
  rcases h with h | h <;> omega

theorem utf8EncodeChar_lt (c : Char) : ∀ x ∈ utf8EncodeChar c, x < 256 := by
  have hv := char_toNat_lt c
  intro x hx
  simp only [utf8EncodeChar] at hx
  split at hx
  · rcases List.mem_singleton.mp hx with rfl; omega
  · split at hx
    · rcases List.mem_cons.mp hx with rfl | hx
      · omega
      · rcases List.mem_singleton.mp hx with rfl; omega
    · split at hx
      · rcases List.mem_cons.mp hx with rfl | hx
        · omega
        rcases List.mem_cons.mp hx with rfl | hx
        · omega
        · rcases List.mem_singleton.mp hx with rfl; omega
      · rcases List.mem_cons.mp hx with rfl | hx
        · omega
        rcases List.mem_cons.mp hx with rfl | hx
        · omega
        rcases List.mem_cons.mp hx with rfl | hx
        · omega
        · rcases List.mem_singleton.mp hx with rfl; omega

theorem utf8EncodeList_lt : ∀ l : List Char, ∀ x ∈ utf8EncodeList l, x < 256
  | [] => by simp [utf8EncodeList]
  | c :: cs => by
    intro x hx
    simp only [utf8EncodeList, List.mem_append] at hx
    rcases hx with hx | hx
    · exact utf8EncodeChar_lt c x hx
    · exact utf8EncodeList_lt cs x hx

theorem xorBytes_length (a b : List Nat) :
    (xorBytes a b).length = min a.length b.length := List.length_zipWith _ _ _

theorem xorBytes_lt : ∀ a b : List Nat, (∀ x ∈ a, x < 256) → (∀ x ∈ b, x < 256) →
    ∀ x ∈ xorBytes a b, x < 256
  | [], _, _, _ => by simp [xorBytes]
  | _ :: _, [], _, _ => by simp [xorBytes]
  | a :: as, b :: bs, ha, hb => by
    intro x hx
    rw [show xorBytes (a :: as) (b :: bs) = (a ^^^ b) :: xorBytes as bs from rfl] at hx
    rcases List.mem_cons.mp hx with rfl | hx
    · have h1 : a < 2 ^ 8 := by have := ha a (by simp); omega
      have h2 : b < 2 ^ 8 := by have := hb b (by simp); omega
      have := Nat.xor_lt_two_pow h1 h2
      omega
    · exact xorBytes_lt as bs (fun y hy => ha y (by simp [hy]))
        (fun y hy => hb y (by simp [hy])) x hx

theorem xorBytes_cancel : ∀ a b : List Nat, a.length = b.length →
    xorBytes (xorBytes a b) b = a
  | [], [], _ => rfl
  | [], _ :: _, h => by simp at h
  | _ :: _, [], h => by simp at h
  | a :: as, b :: bs, h => by
    show (a ^^^ b ^^^ b) :: xorBytes (xorBytes as bs) bs = a :: as
    rw [Nat.xor_cancel_right, xorBytes_cancel as bs (by simpa using h)]

/-! ## UTF-8 round-trip lemmas -/

theorem utf8DecodeLossyF_nil : ∀ f, utf8DecodeLossyF f [] = [] := fun f => by
  cases f <;> rfl

set_option maxHeartbeats 2000000 in
/-- The decoder is insensitive to the exact fuel, as long as it covers
the input length. -/
theorem utf8DecodeLossyF_fuel : ∀ (f : Nat) (l : List Nat), l.length ≤ f →
    ∀ g, l.length ≤ g → utf8DecodeLossyF f l = utf8DecodeLossyF g l := by
  intro f
  induction f with
  | zero =>
    intro l hl g hg
    have hnil : l = [] := List.eq_nil_of_length_eq_zero (by omega)
    subst hnil
    rw [utf8DecodeLossyF_nil, utf8DecodeLossyF_nil]
  | succ f ih =>
    intro l hl g hg
    cases l with
    | nil => rw [utf8DecodeLossyF_nil, utf8DecodeLossyF_nil]
    | cons b rest =>
      cases g with
      | zero => simp at hg
      | succ g =>
        simp only [utf8DecodeLossyF]
        repeat' split
        all_goals try rfl
        all_goals (congr 1; apply ih <;> (simp_all only [List.length_cons]; omega))

set_option maxHeartbeats 1000000 in
set_option maxRecDepth 16384 in
/-- Decoding a UTF-8-encoded scalar at the head of a buffer recovers
exactly that character. -/
theorem utf8DecodeLossy_encodeChar (c : Char) (rest : List Nat) :
    utf8DecodeLossy (utf8EncodeChar c ++ rest) = c :: utf8DecodeLossy rest := by
  have hval : c.toNat < 0xd800 ∨ (0xe000 ≤ c.toNat ∧ c.toNat < 0x110000) := c.valid
  have hub : c.toNat < 0x110000 := char_toNat_lt c
  by_cases h1 : c.toNat < 0x80
  · have he : utf8EncodeChar c = [c.toNat] := by
      simp only [utf8EncodeChar]
      rw [if_pos h1]
    rw [he]
    show utf8DecodeLossyF (rest.length + 1) (c.toNat :: rest) = c :: utf8DecodeLossy rest
    simp only [utf8DecodeLossyF]
    rw [if_pos h1, Char.ofNat_toNat]
    rfl
  · by_cases h2 : c.toNat < 0x800
    · have he : utf8EncodeChar c = [0xC0 + c.toNat / 64, 0x80 + c.toNat % 64] := by
        simp only [utf8EncodeChar]
        rw [if_neg h1, if_pos h2]
      rw [he]
      show utf8DecodeLossyF (rest.length + 1 + 1)
        ((0xC0 + c.toNat / 64) :: (0x80 + c.toNat % 64) :: rest) = c :: utf8DecodeLossy rest
      simp only [utf8DecodeLossyF]
      rw [if_neg (by omega), if_neg (by omega), if_pos (by omega),
        if_pos (show 0x80 ≤ 0x80 + c.toNat % 64 ∧ 0x80 + c.toNat % 64 < 0xC0 from
          ⟨by omega, by omega⟩)]
      have harg : (0xC0 + c.toNat / 64 - 0xC0) * 64 + (0x80 + c.toNat % 64 - 0x80) =
          c.toNat := by omega
      rw [harg, Char.ofNat_toNat]
      congr 1
      exact utf8DecodeLossyF_fuel _ rest (by omega) _ (le_refl _)
    · by_cases h3 : c.toNat < 0x10000
      · have he : utf8EncodeChar c =
            [0xE0 + c.toNat / 4096, 0x80 + c.toNat / 64 % 64, 0x80 + c.toNat % 64] := by
          simp only [utf8EncodeChar]
          rw [if_neg h1, if_neg h2, if_pos h3]
        rw [he]
        show utf8DecodeLossyF (rest.length + 1 + 1 + 1)
          ((0xE0 + c.toNat / 4096) :: (0x80 + c.toNat / 64 % 64) ::
            (0x80 + c.toNat % 64) :: rest) = c :: utf8DecodeLossy rest
        have hguard : (if 0xE0 + c.toNat / 4096 = 0xE0 then
              0xA0 ≤ 0x80 + c.toNat / 64 % 64 ∧ 0x80 + c.toNat / 64 % 64 < 0xC0
            else if 0xE0 + c.toNat / 4096 = 0xED then
              0x80 ≤ 0x80 + c.toNat / 64 % 64 ∧ 0x80 + c.toNat / 64 % 64 < 0xA0
            else 0x80 ≤ 0x80 + c.toNat / 64 % 64 ∧ 0x80 + c.toNat / 64 % 64 < 0xC0) := by
          by_cases hE : 0xE0 + c.toNat / 4096 = 0xE0
          · rw [if_pos hE]
            exact ⟨by omega, by omega⟩
          · rw [if_neg hE]
            by_cases hD : 0xE0 + c.toNat / 4096 = 0xED
            · rw [if_pos hD]
              rcases hval with hval | hval
              · exact ⟨by omega, by omega⟩
              · exact ⟨by omega, by omega⟩
            · rw [if_neg hD]
              exact ⟨by omega, by omega⟩
        simp only [utf8DecodeLossyF]
        rw [if_neg (by omega), if_neg (by omega), if_neg (by omega), if_pos (by omega),
          if_pos hguard,
          if_pos (show 0x80 ≤ 0x80 + c.toNat % 64 ∧ 0x80 + c.toNat % 64 < 0xC0 from
            ⟨by omega, by omega⟩)]
        have harg : (0xE0 + c.toNat / 4096 - 0xE0) * 4096 +
            (0x80 + c.toNat / 64 % 64 - 0x80) * 64 + (0x80 + c.toNat % 64 - 0x80) =
            c.toNat := by omega
        rw [harg, Char.ofNat_toNat]
        congr 1
        exact utf8DecodeLossyF_fuel _ rest (by omega) _ (le_refl _)
      · have he : utf8EncodeChar c =
            [0xF0 + c.toNat / 262144, 0x80 + c.toNat / 4096 % 64,
             0x80 + c.toNat / 64 % 64, 0x80 + c.toNat % 64] := by
          simp only [utf8EncodeChar]
          rw [if_neg h1, if_neg h2, if_neg h3]
        rw [he]
        show utf8DecodeLossyF (rest.length + 1 + 1 + 1 + 1)
          ((0xF0 + c.toNat / 262144) :: (0x80 + c.toNat / 4096 % 64) ::
            (0x80 + c.toNat / 64 % 64) :: (0x80 + c.toNat % 64) :: rest) =
          c :: utf8DecodeLossy rest
        have hguard : (if 0xF0 + c.toNat / 262144 = 0xF0 then
              0x90 ≤ 0x80 + c.toNat / 4096 % 64 ∧ 0x80 + c.toNat / 4096 % 64 < 0xC0
            else if 0xF0 + c.toNat / 262144 = 0xF4 then
              0x80 ≤ 0x80 + c.toNat / 4096 % 64 ∧ 0x80 + c.toNat / 4096 % 64 < 0x90
            else 0x80 ≤ 0x80 + c.toNat / 4096 % 64 ∧ 0x80 + c.toNat / 4096 % 64 < 0xC0) := by
          by_cases hE : 0xF0 + c.toNat / 262144 = 0xF0
          · rw [if_pos hE]
            exact ⟨by omega, by omega⟩
          · rw [if_neg hE]
            by_cases hD : 0xF0 + c.toNat / 262144 = 0xF4
            · rw [if_pos hD]
              exact ⟨by omega, by omega⟩
            · rw [if_neg hD]
              exact ⟨by omega, by omega⟩
        simp only [utf8DecodeLossyF]
        rw [if_neg (by omega), if_neg (by omega), if_neg (by omega), if_neg (by omega),
          if_pos (by omega), if_pos hguard,
          if_pos (show 0x80 ≤ 0x80 + c.toNat / 64 % 64 ∧ 0x80 + c.toNat / 64 % 64 < 0xC0 from
            ⟨by omega, by omega⟩),
          if_pos (show 0x80 ≤ 0x80 + c.toNat % 64 ∧ 0x80 + c.toNat % 64 < 0xC0 from
            ⟨by omega, by omega⟩)]
        have harg : (0xF0 + c.toNat / 262144 - 0xF0) * 262144 +
            (0x80 + c.toNat / 4096 % 64 - 0x80) * 4096 +
            (0x80 + c.toNat / 64 % 64 - 0x80) * 64 + (0x80 + c.toNat % 64 - 0x80) =
            c.toNat := by omega
        rw [harg, Char.ofNat_toNat]
        congr 1
        exact utf8DecodeLossyF_fuel _ rest (by omega) _ (le_refl _)

theorem utf8DecodeLossy_encodeList : ∀ l : List Char,
    utf8DecodeLossy (utf8EncodeList l) = l
  | [] => rfl
  | c :: cs => by
    show utf8DecodeLossy (utf8EncodeChar c ++ utf8EncodeList cs) = c :: cs
    rw [utf8DecodeLossy_encodeChar, utf8DecodeLossy_encodeList cs]

/-- `Buffer.from(s, "utf8").toString("utf8")` recovers `s`. -/
theorem utf8_roundtrip (s : String) : utf8DecodeLossy (utf8Encode s) = s.data :=
  utf8DecodeLossy_encodeList s.data

/-! ## JSON round-trip lemmas -/

theorem jsonWsC_quote : jsonWsC '"' = false := by decide
theorem jsonWsC_colon : jsonWsC ':' = false := by decide
theorem jsonWsC_comma : jsonWsC ',' = false := by decide
theorem jsonWsC_rbrace : jsonWsC '}' = false := by decide
theorem jsonWsC_lbrace : jsonWsC '{' = false := by decide

theorem skipJsonWs_cons (c : Char) (l : List Char) (h : jsonWsC c = false) :
    skipJsonWs (c :: l) = c :: l := by
  simp [skipJsonWs, List.dropWhile_cons, h]

/-- The `\u00XY` escapes emitted for control characters parse back. -/
theorem hexEsc_ok : ∀ n, n < 32 →
    isHexC (hexDigitChar (n / 16)) = true ∧ isHexC (hexDigitChar (n % 16)) = true ∧
    natOfHexDigits ['0', '0', hexDigitChar (n / 16), hexDigitChar (n % 16)] = n := by
  decide

/-! One-step evaluation rules for `parseStrBody`. -/

theorem parseStrBody_quote (r : List Char) :
    parseStrBody ('"' :: r) = some ([], r) := by
  conv_lhs => rw [parseStrBody.eq_def]
  simp

theorem parseStrBody_escQuote (r : List Char) :
    parseStrBody ('\\' :: '"' :: r) = (parseStrBody r).map (fun p => ('"' :: p.1, p.2)) := by
  conv_lhs => rw [parseStrBody.eq_def]
  simp

theorem parseStrBody_escBackslash (r : List Char) :
    parseStrBody ('\\' :: '\\' :: r) =
      (parseStrBody r).map (fun p => ('\\' :: p.1, p.2)) := by
  conv_lhs => rw [parseStrBody.eq_def]
  simp

theorem parseStrBody_escB (r : List Char) :
    parseStrBody ('\\' :: 'b' :: r) =
      (parseStrBody r).map (fun p => (Char.ofNat 8 :: p.1, p.2)) := by
  conv_lhs => rw [parseStrBody.eq_def]
  simp

theorem parseStrBody_escT (r : List Char) :
    parseStrBody ('\\' :: 't' :: r) =
      (parseStrBody r).map (fun p => (Char.ofNat 9 :: p.1, p.2)) := by
  conv_lhs => rw [parseStrBody.eq_def]
  simp

theorem parseStrBody_escN (r : List Char) :
    parseStrBody ('\\' :: 'n' :: r) =
      (parseStrBody r).map (fun p => (Char.ofNat 10 :: p.1, p.2)) := by
  conv_lhs => rw [parseStrBody.eq_def]
  simp

theorem parseStrBody_escF (r : List Char) :
    parseStrBody ('\\' :: 'f' :: r) =
      (parseStrBody r).map (fun p => (Char.ofNat 12 :: p.1, p.2)) := by
  conv_lhs => rw [parseStrBody.eq_def]
  simp

theorem parseStrBody_escR (r : List Char) :
    parseStrBody ('\\' :: 'r' :: r) =
      (parseStrBody r).map (fun p => (Char.ofNat 13 :: p.1, p.2)) := by
  conv_lhs => rw [parseStrBody.eq_def]
  simp

theorem parseStrBody_escU (d1 d2 d3 d4 : Char) (r : List Char)
    (hh : (isHexC d1 && isHexC d2 && isHexC d3 && isHexC d4) = true) :
    parseStrBody ('\\' :: 'u' :: d1 :: d2 :: d3 :: d4 :: r) =
      (parseStrBody r).map (fun p =>
        ((if (natOfHexDigits [d1, d2, d3, d4]).isValidChar then
            Char.ofNat (natOfHexDigits [d1, d2, d3, d4]) else repChar) :: p.1, p.2)) := by
  conv_lhs => rw [parseStrBody.eq_def]
  simp [hh]

theorem parseStrBody_plain (c : Char) (r : List Char) (h1 : ¬c = '"') (h2 : ¬c = '\\')
    (h3 : ¬c.toNat < 0x20) :
    parseStrBody (c :: r) = (parseStrBody r).map (fun p => (c :: p.1, p.2)) := by
  conv_lhs => rw [parseStrBody.eq_def]
  simp [h1, h2, h3]

set_option maxHeartbeats 1000000 in
/-- Parsing a string-literal body inverts `JSON.stringify` escaping. -/
theorem parseStrBody_escList : ∀ (s rest : List Char),
    parseStrBody (escList s ++ '"' :: rest) = some (s, rest)
  | [], rest => parseStrBody_quote rest
  | c :: cs, rest => by
    have IH := parseStrBody_escList cs rest
    show parseStrBody ((escChar c ++ escList cs) ++ '"' :: rest) = some (c :: cs, rest)
    rw [List.append_assoc]
    by_cases h1 : c = '"'
    · subst h1
      rw [show escChar '"' = ['\\', '"'] from rfl,
        show (['\\', '"'] : List Char) ++ (escList cs ++ '"' :: rest) =
          '\\' :: '"' :: (escList cs ++ '"' :: rest) from rfl,
        parseStrBody_escQuote, IH]
      rfl
    · by_cases h2 : c = '\\'
      · subst h2
        rw [show escChar '\\' = ['\\', '\\'] from rfl,
          show (['\\', '\\'] : List Char) ++ (escList cs ++ '"' :: rest) =
            '\\' :: '\\' :: (escList cs ++ '"' :: rest) from rfl,
          parseStrBody_escBackslash, IH]
        rfl
      · by_cases h3 : c = Char.ofNat 8
        · subst h3
          rw [show escChar (Char.ofNat 8) = ['\\', 'b'] from rfl,
            show (['\\', 'b'] : List Char) ++ (escList cs ++ '"' :: rest) =
              '\\' :: 'b' :: (escList cs ++ '"' :: rest) from rfl,
            parseStrBody_escB, IH]
          rfl
        · by_cases h4 : c = Char.ofNat 9
          · subst h4
            rw [show escChar (Char.ofNat 9) = ['\\', 't'] from rfl,
              show (['\\', 't'] : List Char) ++ (escList cs ++ '"' :: rest) =
                '\\' :: 't' :: (escList cs ++ '"' :: rest) from rfl,
              parseStrBody_escT, IH]
            rfl
          · by_cases h5 : c = Char.ofNat 10
            · subst h5
              rw [show escChar (Char.ofNat 10) = ['\\', 'n'] from rfl,
                show (['\\', 'n'] : List Char) ++ (escList cs ++ '"' :: rest) =
                  '\\' :: 'n' :: (escList cs ++ '"' :: rest) from rfl,
                parseStrBody_escN, IH]
              rfl
            · by_cases h6 : c = Char.ofNat 12
              · subst h6
                rw [show escChar (Char.ofNat 12) = ['\\', 'f'] from rfl,
                  show (['\\', 'f'] : List Char) ++ (escList cs ++ '"' :: rest) =
                    '\\' :: 'f' :: (escList cs ++ '"' :: rest) from rfl,
                  parseStrBody_escF, IH]
                rfl
              · by_cases h7 : c = Char.ofNat 13
                · subst h7
                  rw [show escChar (Char.ofNat 13) = ['\\', 'r'] from rfl,
                    show (['\\', 'r'] : List Char) ++ (escList cs ++ '"' :: rest) =
                      '\\' :: 'r' :: (escList cs ++ '"' :: rest) from rfl,
                    parseStrBody_escR, IH]
                  rfl
                · by_cases h8 : c.toNat < 0x20
                  · have he : escChar c = ['\\', 'u', '0', '0',
                        hexDigitChar (c.toNat / 16), hexDigitChar (c.toNat % 16)] := by
                      simp only [escChar]
                      rw [if_neg h1, if_neg h2, if_neg h3, if_neg h4, if_neg h5,
                        if_neg h6, if_neg h7, if_pos h8]
                    obtain ⟨hh1, hh2, hh3⟩ := hexEsc_ok c.toNat h8
                    rw [he, List.cons_append, List.cons_append, List.cons_append,
                      List.cons_append, List.cons_append, List.cons_append, List.nil_append,
                      parseStrBody_escU _ _ _ _ _ (by rw [hh1, hh2]; rfl), IH, hh3,
                      if_pos (show Nat.isValidChar c.toNat from Or.inl (by omega)),
                      Char.ofNat_toNat]
                    rfl
                  · have he : escChar c = [c] := by
                      simp only [escChar]
                      rw [if_neg h1, if_neg h2, if_neg h3, if_neg h4, if_neg h5,
                        if_neg h6, if_neg h7, if_neg h8]
                    rw [he, List.cons_append, List.nil_append,
                      parseStrBody_plain c _ h1 h2 h8, IH]
                    rfl

theorem stringifyMembers_len : ∀ m : List (String × String),
    m.length ≤ (stringifyMembers m).length + 1
  | [] => by simp [stringifyMembers]
  | [(k, v)] => by simp [stringifyMembers]
  | (k, v) :: (k2, v2) :: rest => by
    have IH := stringifyMembers_len ((k2, v2) :: rest)
    simp only [stringifyMembers, List.length_cons, List.length_append, jsonQuote] at *
    omega

set_option maxHeartbeats 1000000 in
/-- Parsing members inverts `stringifyMembers`, consuming the closing
brace, whenever the fuel covers the member count. -/
theorem parseMembers_stringify : ∀ (m : List (String × String)) (fuel : Nat),
    m.length ≤ fuel → m ≠ [] →
    parseMembers fuel (stringifyMembers m ++ ['}']) = some (m, [])
  | [], _, _, hne => absurd rfl hne
  | (k, v) :: [], 0, hf, _ => by simp at hf
  | (k, v) :: (k2, v2) :: rest, 0, hf, _ => by simp at hf
  | (k, v) :: [], fuel + 1, _, _ => by
    have hL : stringifyMembers [(k, v)] ++ ['}'] =
        '"' :: (escList k.data ++ '"' :: (':' :: ('"' ::
          (escList v.data ++ '"' :: ('}' :: []))))) := by
      simp [stringifyMembers, jsonQuote, List.cons_append, List.append_assoc]
    rw [hL]
    conv_lhs => rw [parseMembers.eq_def]
    simp only [skipJsonWs_cons, jsonWsC_quote, jsonWsC_colon, jsonWsC_rbrace,
      parseStrBody_escList]
  | (k, v) :: (k2, v2) :: rest, fuel + 1, hf, _ => by
    have IH := parseMembers_stringify ((k2, v2) :: rest) fuel
      (by simp only [List.length_cons] at hf ⊢; omega) (by simp)
    have hL : stringifyMembers ((k, v) :: (k2, v2) :: rest) ++ ['}'] =
        '"' :: (escList k.data ++ '"' :: (':' :: ('"' ::
          (escList v.data ++ '"' :: (',' ::
            (stringifyMembers ((k2, v2) :: rest) ++ ['}'])))))) := by
      simp [stringifyMembers, jsonQuote, List.cons_append, List.append_assoc]
    rw [hL]
    conv_lhs => rw [parseMembers.eq_def]
    simp only [skipJsonWs_cons, jsonWsC_quote, jsonWsC_colon, jsonWsC_comma,
      parseStrBody_escList, IH]
    rfl

theorem objInsert_fresh (fields : List (String × String)) (k v : String)
    (h : ∀ p ∈ fields, p.1 ≠ k) : objInsert fields k v = fields ++ [(k, v)] := by
  have hna : fields.any (fun p => p.1 == k) = false := by
    rw [List.any_eq_false]
    intro p hp
    simpa using h p hp
  simp [objInsert, hna]

theorem buildObj_loop : ∀ (m acc : List (String × String)),
    ((acc ++ m).map Prod.fst).Nodup →
    m.foldl (fun a p => objInsert a p.1 p.2) acc = acc ++ m
  | [], acc, _ => by simp
  | (k, v) :: rest, acc, h => by
    have hk : ∀ p ∈ acc, p.1 ≠ k := by
      have h' := h
      simp only [List.map_append, List.map_cons, List.nodup_append] at h'
      obtain ⟨-, -, hdisj⟩ := h'
      intro p hp hpk
      exact hdisj (List.mem_map_of_mem _ hp) (by simp [hpk])
    rw [List.foldl_cons]
    show rest.foldl (fun a p => objInsert a p.1 p.2) (objInsert acc k v) =
      acc ++ (k, v) :: rest
    rw [objInsert_fresh acc k v hk]
    have IH := buildObj_loop rest (acc ++ [(k, v)]) (by
      rwa [List.append_assoc, List.singleton_append])
    rw [IH, List.append_assoc, List.singleton_append]

/-- A JS object built from members with pairwise-distinct keys is those
members in order. -/
theorem buildObj_eq (m : List (String × String)) (h : (m.map Prod.fst).Nodup) :
    buildObj m = m := by
  have hl := buildObj_loop m [] (by simpa using h)
  simpa [buildObj] using hl

/-- Evaluation rule for `jsonParse` on a brace-headed input whose body
starts with a string literal. -/
theorem jsonParse_brace (R t : List Char) (hR : skipJsonWs R = '"' :: t) :
    jsonParse ⟨'{' :: R⟩ =
      (match parseMembers (R.length + 1) R with
      | some (ms, rest) =>
        if (skipJsonWs rest).isEmpty then some (.obj (buildObj ms)) else none
      | none => none) := by
  simp only [jsonParse]
  rw [skipJsonWs_cons _ _ (by decide)]
  show (match skipJsonWs R with
      | '}' :: r' => if (skipJsonWs r').isEmpty then some (JsValue.obj []) else none
      | _ =>
        match parseMembers (R.length + 1) R with
        | some (ms, rest) =>
          if (skipJsonWs rest).isEmpty then some (JsValue.obj (buildObj ms)) else none
        | none => none) =
    (match parseMembers (R.length + 1) R with
      | some (ms, rest) =>
        if (skipJsonWs rest).isEmpty then some (JsValue.obj (buildObj ms)) else none
      | none => none)
  rw [hR]
  rfl

set_option maxHeartbeats 1000000 in
/-- `JSON.parse ∘ JSON.stringify` is the identity on flat string records
with distinct keys. -/
theorem jsonParse_stringify (m : List (String × String))
    (h : (m.map Prod.fst).Nodup) :
    jsonParse (jsonStringifyRecord m) = some (.obj m) := by
  cases m with
  | nil => decide
  | cons kv m' =>
    obtain ⟨k, v⟩ := kv
    have hhead : ∃ t, stringifyMembers ((k, v) :: m') ++ ['}'] = '"' :: t := by
      cases m' with
      | nil =>
        exact ⟨escList k.data ++ '"' :: ':' :: '"' :: (escList v.data ++ ['"', '}']),
          by simp [stringifyMembers, jsonQuote, List.cons_append]⟩
      | cons kv2 r2 =>
        exact ⟨escList k.data ++ '"' :: ':' :: '"' ::
            (escList v.data ++ '"' :: ',' :: (stringifyMembers (kv2 :: r2) ++ ['}'])),
          by simp [stringifyMembers, jsonQuote, List.cons_append]⟩
    obtain ⟨t, ht⟩ := hhead
    have hfuel : ((k, v) :: m').length ≤
        (stringifyMembers ((k, v) :: m') ++ ['}']).length + 1 := by
      have := stringifyMembers_len ((k, v) :: m')
      simp only [List.length_append] at *
      omega
    rw [show jsonStringifyRecord ((k, v) :: m') =
      ⟨'{' :: (stringifyMembers ((k, v) :: m') ++ ['}'])⟩ from rfl]
    rw [jsonParse_brace _ t (by rw [ht]; exact skipJsonWs_cons _ _ (by decide))]
    rw [parseMembers_stringify ((k, v) :: m') _ hfuel (by simp)]
    show (if (skipJsonWs ([] : List Char)).isEmpty then
        some (JsValue.obj (buildObj ((k, v) :: m'))) else none) =
      some (JsValue.obj ((k, v) :: m'))
    rw [buildObj_eq _ h]
    rfl

theorem take_append_len {α : Type} (a b : List α) (n : Nat) (h : a.length = n) :
    (a ++ b).take n = a := by
  subst h
  exact List.take_left a b

theorem drop_append_len {α : Type} (a b : List α) (n : Nat) (h : a.length = n) :
    (a ++ b).drop n = b := by
  subst h
  exact List.drop_left a b

set_option maxHeartbeats 2000000 in
/-- C1: for every credential map with distinct keys and every draw of the
salt and iv, `decryptCredentials` inverts `encryptCredentials` and yields
exactly the original map. -/
theorem credsRoundTrip (masterKey : String) (salt iv : List Nat)
    (data : List (String × String))
    (hs : salt.length = 32) (hi : iv.length = 16)
    (hsb : ∀ x ∈ salt, x < 256) (hib : ∀ x ∈ iv, x < 256)
    (hk : (data.map Prod.fst).Nodup) :
    decryptCredentials masterKey (encryptCredentials masterKey salt iv data) =
      .ok (.obj data) := by
  have hPbyte : ∀ x ∈ utf8Encode (jsonStringifyRecord data), x < 256 :=
    utf8EncodeList_lt (jsonStringifyRecord data).data
  have hEbyte : ∀ x ∈ xorBytes (utf8Encode (jsonStringifyRecord data)) (keystream (deriveKey masterKey salt) iv (utf8Encode (jsonStringifyRecord data)).length), x < 256 :=
    xorBytes_lt _ _ hPbyte (keystream_lt _ _ _)
  have hTbyte : ∀ x ∈ gcmTag (deriveKey masterKey salt) iv (xorBytes (utf8Encode (jsonStringifyRecord data)) (keystream (deriveKey masterKey salt) iv (utf8Encode (jsonStringifyRecord data)).length)), x < 256 := gcmTag_lt _ _ _
  have hall : ∀ x ∈ salt ++ (iv ++ (gcmTag (deriveKey masterKey salt) iv (xorBytes (utf8Encode (jsonStringifyRecord data)) (keystream (deriveKey masterKey salt) iv (utf8Encode (jsonStringifyRecord data)).length)) ++ xorBytes (utf8Encode (jsonStringifyRecord data)) (keystream (deriveKey masterKey salt) iv (utf8Encode (jsonStringifyRecord data)).length))), x < 256 := by
    intro x hx
    simp only [List.mem_append] at hx
    rcases hx with hx | hx | hx | hx
    · exact hsb x hx
    · exact hib x hx
    · exact hTbyte x hx
    · exact hEbyte x hx
  have hElen : (xorBytes (utf8Encode (jsonStringifyRecord data)) (keystream (deriveKey masterKey salt) iv (utf8Encode (jsonStringifyRecord data)).length)).length = (utf8Encode (jsonStringifyRecord data)).length := by
    rw [xorBytes_length, keystream_length, Nat.min_self]
  have hc : base64Decode (base64Encode (salt ++ (iv ++ (gcmTag (deriveKey masterKey salt) iv (xorBytes (utf8Encode (jsonStringifyRecord data)) (keystream (deriveKey masterKey salt) iv (utf8Encode (jsonStringifyRecord data)).length)) ++ xorBytes (utf8Encode (jsonStringifyRecord data)) (keystream (deriveKey masterKey salt) iv (utf8Encode (jsonStringifyRecord data)).length))))) = salt ++ (iv ++ (gcmTag (deriveKey masterKey salt) iv (xorBytes (utf8Encode (jsonStringifyRecord data)) (keystream (deriveKey masterKey salt) iv (utf8Encode (jsonStringifyRecord data)).length)) ++ xorBytes (utf8Encode (jsonStringifyRecord data)) (keystream (deriveKey masterKey salt) iv (utf8Encode (jsonStringifyRecord data)).length))) :=
    base64_roundtrip _ hall
  have h1 : (salt ++ (iv ++ (gcmTag (deriveKey masterKey salt) iv (xorBytes (utf8Encode (jsonStringifyRecord data)) (keystream (deriveKey masterKey salt) iv (utf8Encode (jsonStringifyRecord data)).length)) ++ xorBytes (utf8Encode (jsonStringifyRecord data)) (keystream (deriveKey masterKey salt) iv (utf8Encode (jsonStringifyRecord data)).length)))).take 32 = salt := take_append_len _ _ _ hs
  have hd32 : (salt ++ (iv ++ (gcmTag (deriveKey masterKey salt) iv (xorBytes (utf8Encode (jsonStringifyRecord data)) (keystream (deriveKey masterKey salt) iv (utf8Encode (jsonStringifyRecord data)).length)) ++ xorBytes (utf8Encode (jsonStringifyRecord data)) (keystream (deriveKey masterKey salt) iv (utf8Encode (jsonStringifyRecord data)).length)))).drop 32 = iv ++ (gcmTag (deriveKey masterKey salt) iv (xorBytes (utf8Encode (jsonStringifyRecord data)) (keystream (deriveKey masterKey salt) iv (utf8Encode (jsonStringifyRecord data)).length)) ++ xorBytes (utf8Encode (jsonStringifyRecord data)) (keystream (deriveKey masterKey salt) iv (utf8Encode (jsonStringifyRecord data)).length)) := drop_append_len _ _ _ hs
  have h2 : ((salt ++ (iv ++ (gcmTag (deriveKey masterKey salt) iv (xorBytes (utf8Encode (jsonStringifyRecord data)) (keystream (deriveKey masterKey salt) iv (utf8Encode (jsonStringifyRecord data)).length)) ++ xorBytes (utf8Encode (jsonStringifyRecord data)) (keystream (deriveKey masterKey salt) iv (utf8Encode (jsonStringifyRecord data)).length)))).drop 32).take 16 = iv := by
    rw [hd32]
    exact take_append_len _ _ _ hi
  have hd48 : (salt ++ (iv ++ (gcmTag (deriveKey masterKey salt) iv (xorBytes (utf8Encode (jsonStringifyRecord data)) (keystream (deriveKey masterKey salt) iv (utf8Encode (jsonStringifyRecord data)).length)) ++ xorBytes (utf8Encode (jsonStringifyRecord data)) (keystream (deriveKey masterKey salt) iv (utf8Encode (jsonStringifyRecord data)).length)))).drop 48 = gcmTag (deriveKey masterKey salt) iv (xorBytes (utf8Encode (jsonStringifyRecord data)) (keystream (deriveKey masterKey salt) iv (utf8Encode (jsonStringifyRecord data)).length)) ++ xorBytes (utf8Encode (jsonStringifyRecord data)) (keystream (deriveKey masterKey salt) iv (utf8Encode (jsonStringifyRecord data)).length) := by
    rw [show (48 : Nat) = 32 + 16 from rfl, ← List.drop_drop, hd32]
    exact drop_append_len _ _ _ hi
  have h3 : ((salt ++ (iv ++ (gcmTag (deriveKey masterKey salt) iv (xorBytes (utf8Encode (jsonStringifyRecord data)) (keystream (deriveKey masterKey salt) iv (utf8Encode (jsonStringifyRecord data)).length)) ++ xorBytes (utf8Encode (jsonStringifyRecord data)) (keystream (deriveKey masterKey salt) iv (utf8Encode (jsonStringifyRecord data)).length)))).drop 48).take 16 = gcmTag (deriveKey masterKey salt) iv (xorBytes (utf8Encode (jsonStringifyRecord data)) (keystream (deriveKey masterKey salt) iv (utf8Encode (jsonStringifyRecord data)).length)) := by
    rw [hd48]
    exact take_append_len _ _ _ (gcmTag_length _ _ _)
  have h4 : (salt ++ (iv ++ (gcmTag (deriveKey masterKey salt) iv (xorBytes (utf8Encode (jsonStringifyRecord data)) (keystream (deriveKey masterKey salt) iv (utf8Encode (jsonStringifyRecord data)).length)) ++ xorBytes (utf8Encode (jsonStringifyRecord data)) (keystream (deriveKey masterKey salt) iv (utf8Encode (jsonStringifyRecord data)).length)))).drop 64 = xorBytes (utf8Encode (jsonStringifyRecord data)) (keystream (deriveKey masterKey salt) iv (utf8Encode (jsonStringifyRecord data)).length) := by
    rw [show (64 : Nat) = 48 + 16 from rfl, ← List.drop_drop, hd48]
    exact drop_append_len _ _ _ (gcmTag_length _ _ _)
  simp only [decryptCredentials, encryptCredentials]
  rw [hc, h1, h2, h3, h4]
  rw [if_pos ⟨gcmTag_length _ _ _, rfl⟩]
  rw [hElen, xorBytes_cancel _ _ (keystream_length _ _ _).symm]
  rw [utf8_roundtrip]
  rw [show (⟨(jsonStringifyRecord data).data⟩ : String) = jsonStringifyRecord data from rfl]
  rw [jsonParse_stringify data hk]

/-- Concrete instantiation of `credsRoundTrip`. -/
theorem credsRoundTrip_witness :
    decryptCredentials "mk" (encryptCredentials "mk" (List.replicate 32 0)
      (List.replicate 16 0) [("a", "b")]) = .ok (.obj [("a", "b")]) :=
  credsRoundTrip "mk" (List.replicate 32 0) (List.replicate 16 0) [("a", "b")]
    (by decide) (by decide)
    (fun x hx => by rw [List.eq_of_mem_replicate hx]; decide)
    (fun x hx => by rw [List.eq_of_mem_replicate hx]; decide)
    (by decide)

theorem set_append_right {α : Type} : ∀ (a b : List α) (i : Nat) (x : α),
    a.length ≤ i → (a ++ b).set i x = a ++ b.set (i - a.length) x
  | [], b, i, x, _ => by simp
  | c :: cs, b, 0, x, h => by simp at h
  | c :: cs, b, i + 1, x, h => by
    simp only [List.cons_append, List.set_cons_succ]
    rw [set_append_right cs b i x (by simpa using h)]
    simp only [List.length_cons]
    rw [show i + 1 - (cs.length + 1) = i - cs.length from by omega]

theorem set_append_left {α : Type} : ∀ (a b : List α) (i : Nat) (x : α),
    i < a.length → (a ++ b).set i x = a.set i x ++ b
  | [], _, _, _, h => by simp at h
  | c :: cs, b, 0, x, _ => by simp
  | c :: cs, b, i + 1, x, h => by
    simp only [List.cons_append, List.set_cons_succ]
    rw [set_append_left cs b i x (by simpa using h)]

set_option maxHeartbeats 2000000 in
/-- C2 (amended): flipping any bit in the auth-tag region (bytes 48..63)
of a stored blob always defeats the tag verification, so the AEAD path
never yields a plaintext; the outcome is exactly the legacy fallback:
`JSON.parse` of the lossily-decoded tampered bytes when that succeeds,
and the hard `DecryptionError` otherwise. -/
theorem tamperDetection_amended (masterKey : String) (salt iv : List Nat)
    (data : List (String × String)) (i bit : Nat)
    (hs : salt.length = 32) (hi : iv.length = 16)
    (hsb : ∀ x ∈ salt, x < 256) (hib : ∀ x ∈ iv, x < 256)
    (hil : 48 ≤ i) (hiu : i < 64) (hbit : bit < 8) :
    decryptCredentials masterKey (base64Encode (flipBit
        (base64Decode (encryptCredentials masterKey salt iv data)) i bit)) =
      (match jsonParse ⟨utf8DecodeLossy (flipBit
          (base64Decode (encryptCredentials masterKey salt iv data)) i bit)⟩ with
       | some v => .ok v
       | none => .error decryptErrMsg) := by
  have hPbyte : ∀ x ∈ utf8Encode (jsonStringifyRecord data), x < 256 :=
    utf8EncodeList_lt (jsonStringifyRecord data).data
  have hEbyte : ∀ x ∈ xorBytes (utf8Encode (jsonStringifyRecord data)) (keystream (deriveKey masterKey salt) iv (utf8Encode (jsonStringifyRecord data)).length), x < 256 :=
    xorBytes_lt _ _ hPbyte (keystream_lt _ _ _)
  have hTbyte : ∀ x ∈ gcmTag (deriveKey masterKey salt) iv (xorBytes (utf8Encode (jsonStringifyRecord data)) (keystream (deriveKey masterKey salt) iv (utf8Encode (jsonStringifyRecord data)).length)), x < 256 := gcmTag_lt _ _ _
  have hall : ∀ x ∈ salt ++ (iv ++ (gcmTag (deriveKey masterKey salt) iv (xorBytes (utf8Encode (jsonStringifyRecord data)) (keystream (deriveKey masterKey salt) iv (utf8Encode (jsonStringifyRecord data)).length)) ++ xorBytes (utf8Encode (jsonStringifyRecord data)) (keystream (deriveKey masterKey salt) iv (utf8Encode (jsonStringifyRecord data)).length))), x < 256 := by
    intro x hx
    simp only [List.mem_append] at hx
    rcases hx with hx | hx | hx | hx
    · exact hsb x hx
    · exact hib x hx
    · exact hTbyte x hx
    · exact hEbyte x hx
  have hc : base64Decode (base64Encode (salt ++ (iv ++ (gcmTag (deriveKey masterKey salt) iv (xorBytes (utf8Encode (jsonStringifyRecord data)) (keystream (deriveKey masterKey salt) iv (utf8Encode (jsonStringifyRecord data)).length)) ++ xorBytes (utf8Encode (jsonStringifyRecord data)) (keystream (deriveKey masterKey salt) iv (utf8Encode (jsonStringifyRecord data)).length))))) = salt ++ (iv ++ (gcmTag (deriveKey masterKey salt) iv (xorBytes (utf8Encode (jsonStringifyRecord data)) (keystream (deriveKey masterKey salt) iv (utf8Encode (jsonStringifyRecord data)).length)) ++ xorBytes (utf8Encode (jsonStringifyRecord data)) (keystream (deriveKey masterKey salt) iv (utf8Encode (jsonStringifyRecord data)).length))) :=
    base64_roundtrip _ hall
  have hTlen : (gcmTag (deriveKey masterKey salt) iv (xorBytes (utf8Encode (jsonStringifyRecord data)) (keystream (deriveKey masterKey salt) iv (utf8Encode (jsonStringifyRecord data)).length))).length = 16 := gcmTag_length _ _ _
  have hj : i - 48 < 16 := by omega
  have hgd : (salt ++ (iv ++ (gcmTag (deriveKey masterKey salt) iv (xorBytes (utf8Encode (jsonStringifyRecord data)) (keystream (deriveKey masterKey salt) iv (utf8Encode (jsonStringifyRecord data)).length)) ++ xorBytes (utf8Encode (jsonStringifyRecord data)) (keystream (deriveKey masterKey salt) iv (utf8Encode (jsonStringifyRecord data)).length)))).getD i 0 = (gcmTag (deriveKey masterKey salt) iv (xorBytes (utf8Encode (jsonStringifyRecord data)) (keystream (deriveKey masterKey salt) iv (utf8Encode (jsonStringifyRecord data)).length))).getD (i - 48) 0 := by
    rw [List.getD_append_right _ _ _ _ (by omega), hs,
      List.getD_append_right _ _ _ _ (by omega), hi,
      List.getD_append _ _ _ _ (by omega)]
    rw [show i - 32 - 16 = i - 48 from by omega]
  have hset : (salt ++ (iv ++ (gcmTag (deriveKey masterKey salt) iv (xorBytes (utf8Encode (jsonStringifyRecord data)) (keystream (deriveKey masterKey salt) iv (utf8Encode (jsonStringifyRecord data)).length)) ++ xorBytes (utf8Encode (jsonStringifyRecord data)) (keystream (deriveKey masterKey salt) iv (utf8Encode (jsonStringifyRecord data)).length)))).set i ((gcmTag (deriveKey masterKey salt) iv (xorBytes (utf8Encode (jsonStringifyRecord data)) (keystream (deriveKey masterKey salt) iv (utf8Encode (jsonStringifyRecord data)).length))).getD (i - 48) 0 ^^^ 2 ^ bit) = salt ++ (iv ++ (((gcmTag (deriveKey masterKey salt) iv (xorBytes (utf8Encode (jsonStringifyRecord data)) (keystream (deriveKey masterKey salt) iv (utf8Encode (jsonStringifyRecord data)).length))).set (i - 48) ((gcmTag (deriveKey masterKey salt) iv (xorBytes (utf8Encode (jsonStringifyRecord data)) (keystream (deriveKey masterKey salt) iv (utf8Encode (jsonStringifyRecord data)).length))).getD (i - 48) 0 ^^^ 2 ^ bit)) ++ xorBytes (utf8Encode (jsonStringifyRecord data)) (keystream (deriveKey masterKey salt) iv (utf8Encode (jsonStringifyRecord data)).length))) := by
    rw [set_append_right _ _ _ _ (by omega), hs,
      set_append_right _ _ _ _ (by omega), hi,
      set_append_left _ _ _ _ (by omega)]
    rw [show i - 32 - 16 = i - 48 from by omega]
  have htb : ∀ x ∈ salt ++ (iv ++ (((gcmTag (deriveKey masterKey salt) iv (xorBytes (utf8Encode (jsonStringifyRecord data)) (keystream (deriveKey masterKey salt) iv (utf8Encode (jsonStringifyRecord data)).length))).set (i - 48) ((gcmTag (deriveKey masterKey salt) iv (xorBytes (utf8Encode (jsonStringifyRecord data)) (keystream (deriveKey masterKey salt) iv (utf8Encode (jsonStringifyRecord data)).length))).getD (i - 48) 0 ^^^ 2 ^ bit)) ++ xorBytes (utf8Encode (jsonStringifyRecord data)) (keystream (deriveKey masterKey salt) iv (utf8Encode (jsonStringifyRecord data)).length))), x < 256 := by
    intro x hx
    simp only [List.mem_append] at hx
    rcases hx with hx | hx | hx | hx
    · exact hsb x hx
    · exact hib x hx
    · rcases List.mem_or_eq_of_mem_set hx with hx | rfl
      · exact hTbyte x hx
      · have hgdb : (gcmTag (deriveKey masterKey salt) iv (xorBytes (utf8Encode (jsonStringifyRecord data)) (keystream (deriveKey masterKey salt) iv (utf8Encode (jsonStringifyRecord data)).length))).getD (i - 48) 0 < 2 ^ 8 := by
          rw [List.getD_eq_getElem _ _ (by omega)]
          have := hTbyte ((gcmTag (deriveKey masterKey salt) iv (xorBytes (utf8Encode (jsonStringifyRecord data)) (keystream (deriveKey masterKey salt) iv (utf8Encode (jsonStringifyRecord data)).length)))[i - 48]) (List.getElem_mem _)
          omega
        have hpb : (2 : Nat) ^ bit < 2 ^ 8 := Nat.pow_lt_pow_right (by omega) hbit
        have := Nat.xor_lt_two_pow hgdb hpb
        omega
    · exact hEbyte x hx
  have hc2 : base64Decode (base64Encode (salt ++ (iv ++ (((gcmTag (deriveKey masterKey salt) iv (xorBytes (utf8Encode (jsonStringifyRecord data)) (keystream (deriveKey masterKey salt) iv (utf8Encode (jsonStringifyRecord data)).length))).set (i - 48) ((gcmTag (deriveKey masterKey salt) iv (xorBytes (utf8Encode (jsonStringifyRecord data)) (keystream (deriveKey masterKey salt) iv (utf8Encode (jsonStringifyRecord data)).length))).getD (i - 48) 0 ^^^ 2 ^ bit)) ++ xorBytes (utf8Encode (jsonStringifyRecord data)) (keystream (deriveKey masterKey salt) iv (utf8Encode (jsonStringifyRecord data)).length))))) = salt ++ (iv ++ (((gcmTag (deriveKey masterKey salt) iv (xorBytes (utf8Encode (jsonStringifyRecord data)) (keystream (deriveKey masterKey salt) iv (utf8Encode (jsonStringifyRecord data)).length))).set (i - 48) ((gcmTag (deriveKey masterKey salt) iv (xorBytes (utf8Encode (jsonStringifyRecord data)) (keystream (deriveKey masterKey salt) iv (utf8Encode (jsonStringifyRecord data)).length))).getD (i - 48) 0 ^^^ 2 ^ bit)) ++ xorBytes (utf8Encode (jsonStringifyRecord data)) (keystream (deriveKey masterKey salt) iv (utf8Encode (jsonStringifyRecord data)).length))) :=
    base64_roundtrip _ htb
  have hTslen : ((gcmTag (deriveKey masterKey salt) iv (xorBytes (utf8Encode (jsonStringifyRecord data)) (keystream (deriveKey masterKey salt) iv (utf8Encode (jsonStringifyRecord data)).length))).set (i - 48) ((gcmTag (deriveKey masterKey salt) iv (xorBytes (utf8Encode (jsonStringifyRecord data)) (keystream (deriveKey masterKey salt) iv (utf8Encode (jsonStringifyRecord data)).length))).getD (i - 48) 0 ^^^ 2 ^ bit)).length = 16 := by
    rw [List.length_set]
    exact hTlen
  have h1 : (salt ++ (iv ++ (((gcmTag (deriveKey masterKey salt) iv (xorBytes (utf8Encode (jsonStringifyRecord data)) (keystream (deriveKey masterKey salt) iv (utf8Encode (jsonStringifyRecord data)).length))).set (i - 48) ((gcmTag (deriveKey masterKey salt) iv (xorBytes (utf8Encode (jsonStringifyRecord data)) (keystream (deriveKey masterKey salt) iv (utf8Encode (jsonStringifyRecord data)).length))).getD (i - 48) 0 ^^^ 2 ^ bit)) ++ xorBytes (utf8Encode (jsonStringifyRecord data)) (keystream (deriveKey masterKey salt) iv (utf8Encode (jsonStringifyRecord data)).length)))).take 32 = salt := take_append_len _ _ _ hs
  have hd32 : (salt ++ (iv ++ (((gcmTag (deriveKey masterKey salt) iv (xorBytes (utf8Encode (jsonStringifyRecord data)) (keystream (deriveKey masterKey salt) iv (utf8Encode (jsonStringifyRecord data)).length))).set (i - 48) ((gcmTag (deriveKey masterKey salt) iv (xorBytes (utf8Encode (jsonStringifyRecord data)) (keystream (deriveKey masterKey salt) iv (utf8Encode (jsonStringifyRecord data)).length))).getD (i - 48) 0 ^^^ 2 ^ bit)) ++ xorBytes (utf8Encode (jsonStringifyRecord data)) (keystream (deriveKey masterKey salt) iv (utf8Encode (jsonStringifyRecord data)).length)))).drop 32 = iv ++ (((gcmTag (deriveKey masterKey salt) iv (xorBytes (utf8Encode (jsonStringifyRecord data)) (keystream (deriveKey masterKey salt) iv (utf8Encode (jsonStringifyRecord data)).length))).set (i - 48) ((gcmTag (deriveKey masterKey salt) iv (xorBytes (utf8Encode (jsonStringifyRecord data)) (keystream (deriveKey masterKey salt) iv (utf8Encode (jsonStringifyRecord data)).length))).getD (i - 48) 0 ^^^ 2 ^ bit)) ++ xorBytes (utf8Encode (jsonStringifyRecord data)) (keystream (deriveKey masterKey salt) iv (utf8Encode (jsonStringifyRecord data)).length)) := drop_append_len _ _ _ hs
  have h2 : ((salt ++ (iv ++ (((gcmTag (deriveKey masterKey salt) iv (xorBytes (utf8Encode (jsonStringifyRecord data)) (keystream (deriveKey masterKey salt) iv (utf8Encode (jsonStringifyRecord data)).length))).set (i - 48) ((gcmTag (deriveKey masterKey salt) iv (xorBytes (utf8Encode (jsonStringifyRecord data)) (keystream (deriveKey masterKey salt) iv (utf8Encode (jsonStringifyRecord data)).length))).getD (i - 48) 0 ^^^ 2 ^ bit)) ++ xorBytes (utf8Encode (jsonStringifyRecord data)) (keystream (deriveKey masterKey salt) iv (utf8Encode (jsonStringifyRecord data)).length)))).drop 32).take 16 = iv := by
    rw [hd32]
    exact take_append_len _ _ _ hi
  have hd48 : (salt ++ (iv ++ (((gcmTag (deriveKey masterKey salt) iv (xorBytes (utf8Encode (jsonStringifyRecord data)) (keystream (deriveKey masterKey salt) iv (utf8Encode (jsonStringifyRecord data)).length))).set (i - 48) ((gcmTag (deriveKey masterKey salt) iv (xorBytes (utf8Encode (jsonStringifyRecord data)) (keystream (deriveKey masterKey salt) iv (utf8Encode (jsonStringifyRecord data)).length))).getD (i - 48) 0 ^^^ 2 ^ bit)) ++ xorBytes (utf8Encode (jsonStringifyRecord data)) (keystream (deriveKey masterKey salt) iv (utf8Encode (jsonStringifyRecord data)).length)))).drop 48 = ((gcmTag (deriveKey masterKey salt) iv (xorBytes (utf8Encode (jsonStringifyRecord data)) (keystream (deriveKey masterKey salt) iv (utf8Encode (jsonStringifyRecord data)).length))).set (i - 48) ((gcmTag (deriveKey masterKey salt) iv (xorBytes (utf8Encode (jsonStringifyRecord data)) (keystream (deriveKey masterKey salt) iv (utf8Encode (jsonStringifyRecord data)).length))).getD (i - 48) 0 ^^^ 2 ^ bit)) ++ xorBytes (utf8Encode (jsonStringifyRecord data)) (keystream (deriveKey masterKey salt) iv (utf8Encode (jsonStringifyRecord data)).length) := by
    rw [show (48 : Nat) = 32 + 16 from rfl, ← List.drop_drop, hd32]
    exact drop_append_len _ _ _ hi
  have h3 : ((salt ++ (iv ++ (((gcmTag (deriveKey masterKey salt) iv (xorBytes (utf8Encode (jsonStringifyRecord data)) (keystream (deriveKey masterKey salt) iv (utf8Encode (jsonStringifyRecord data)).length))).set (i - 48) ((gcmTag (deriveKey masterKey salt) iv (xorBytes (utf8Encode (jsonStringifyRecord data)) (keystream (deriveKey masterKey salt) iv (utf8Encode (jsonStringifyRecord data)).length))).getD (i - 48) 0 ^^^ 2 ^ bit)) ++ xorBytes (utf8Encode (jsonStringifyRecord data)) (keystream (deriveKey masterKey salt) iv (utf8Encode (jsonStringifyRecord data)).length)))).drop 48).take 16 = (gcmTag (deriveKey masterKey salt) iv (xorBytes (utf8Encode (jsonStringifyRecord data)) (keystream (deriveKey masterKey salt) iv (utf8Encode (jsonStringifyRecord data)).length))).set (i - 48) ((gcmTag (deriveKey masterKey salt) iv (xorBytes (utf8Encode (jsonStringifyRecord data)) (keystream (deriveKey masterKey salt) iv (utf8Encode (jsonStringifyRecord data)).length))).getD (i - 48) 0 ^^^ 2 ^ bit) := by
    rw [hd48]
    exact take_append_len _ _ _ hTslen
  have h4 : (salt ++ (iv ++ (((gcmTag (deriveKey masterKey salt) iv (xorBytes (utf8Encode (jsonStringifyRecord data)) (keystream (deriveKey masterKey salt) iv (utf8Encode (jsonStringifyRecord data)).length))).set (i - 48) ((gcmTag (deriveKey masterKey salt) iv (xorBytes (utf8Encode (jsonStringifyRecord data)) (keystream (deriveKey masterKey salt) iv (utf8Encode (jsonStringifyRecord data)).length))).getD (i - 48) 0 ^^^ 2 ^ bit)) ++ xorBytes (utf8Encode (jsonStringifyRecord data)) (keystream (deriveKey masterKey salt) iv (utf8Encode (jsonStringifyRecord data)).length)))).drop 64 = xorBytes (utf8Encode (jsonStringifyRecord data)) (keystream (deriveKey masterKey salt) iv (utf8Encode (jsonStringifyRecord data)).length) := by
    rw [show (64 : Nat) = 48 + 16 from rfl, ← List.drop_drop, hd48]
    exact drop_append_len _ _ _ hTslen
  have hneq : ((gcmTag (deriveKey masterKey salt) iv (xorBytes (utf8Encode (jsonStringifyRecord data)) (keystream (deriveKey masterKey salt) iv (utf8Encode (jsonStringifyRecord data)).length))).set (i - 48) ((gcmTag (deriveKey masterKey salt) iv (xorBytes (utf8Encode (jsonStringifyRecord data)) (keystream (deriveKey masterKey salt) iv (utf8Encode (jsonStringifyRecord data)).length))).getD (i - 48) 0 ^^^ 2 ^ bit)) ≠ gcmTag (deriveKey masterKey salt) iv (xorBytes (utf8Encode (jsonStringifyRecord data)) (keystream (deriveKey masterKey salt) iv (utf8Encode (jsonStringifyRecord data)).length)) := by
    intro heq
    have hgetl : ((gcmTag (deriveKey masterKey salt) iv (xorBytes (utf8Encode (jsonStringifyRecord data)) (keystream (deriveKey masterKey salt) iv (utf8Encode (jsonStringifyRecord data)).length))).set (i - 48) ((gcmTag (deriveKey masterKey salt) iv (xorBytes (utf8Encode (jsonStringifyRecord data)) (keystream (deriveKey masterKey salt) iv (utf8Encode (jsonStringifyRecord data)).length))).getD (i - 48) 0 ^^^ 2 ^ bit)).getD (i - 48) 0 =
        (gcmTag (deriveKey masterKey salt) iv (xorBytes (utf8Encode (jsonStringifyRecord data)) (keystream (deriveKey masterKey salt) iv (utf8Encode (jsonStringifyRecord data)).length))).getD (i - 48) 0 ^^^ 2 ^ bit := by
      rw [List.getD_eq_getElem _ _ (by rw [hTslen]; exact hj)]
      exact List.getElem_set_self _
    rw [heq] at hgetl
    have h0 := congrArg (fun z => (gcmTag (deriveKey masterKey salt) iv (xorBytes (utf8Encode (jsonStringifyRecord data)) (keystream (deriveKey masterKey salt) iv (utf8Encode (jsonStringifyRecord data)).length))).getD (i - 48) 0 ^^^ z) hgetl
    simp only [Nat.xor_self, Nat.xor_cancel_left] at h0
    have := Nat.two_pow_pos bit
    omega
  simp only [decryptCredentials, encryptCredentials, flipBit]
  rw [hc, hgd, hset, hc2, h1, h2, h3, h4]
  rw [if_neg (fun hcontra => hneq hcontra.2)]

/-- Concrete instantiation of `tamperDetection_amended` at the sample
salt and iv, flipping bit 0 of tag byte 48. -/
theorem tamperDetection_amended_witness :
    decryptCredentials "master" (base64Encode (flipBit
        (base64Decode (encryptCredentials "master" tamperSalt tamperIv [])) 48 0)) =
      (match jsonParse ⟨utf8DecodeLossy (flipBit
          (base64Decode (encryptCredentials "master" tamperSalt tamperIv [])) 48 0)⟩ with
       | some v => .ok v
       | none => .error decryptErrMsg) :=
  tamperDetection_amended "master" tamperSalt tamperIv [] 48 0
    (by decide) (by decide) (by decide) (by decide) (by decide) (by decide) (by decide)

set_option maxRecDepth 10000 in
/-- C2, counterexample: the spec says a bit flip in the auth-tag region
always fails with the hard `DecryptionError` and never yields wrong
plaintext; under this salt and iv the tampered blob's raw bytes happen to
parse in the legacy-JSON fallback, so decryption succeeds and returns a
plaintext different from the original map. -/
theorem tamperDetection_counterexample :
    isOkResult (decryptCredentials "master" (base64Encode (flipBit
        (base64Decode (encryptCredentials "master" tamperSalt tamperIv [])) 48 0))) =
      true ∧
    decryptCredentials "master" (base64Encode (flipBit
        (base64Decode (encryptCredentials "master" tamperSalt tamperIv [])) 48 0)) ≠
      .ok (.obj []) ∧
    decryptCredentials "master" (encryptCredentials "master" tamperSalt tamperIv []) =
      .ok (.obj []) := by
  refine ⟨by decide, by decide, by decide⟩

end DnsManager